import Mathlib

/-!
# BlueMapWeb `util/lines/Line2.js`

A shallow embedding of the `Line2` constructor and of the module-level code that
installs `Line2.prototype`, over an explicit model of the JavaScript heap
(objects with a prototype link and own data properties), of the `new` operator,
of the random source read by `Math.random`, and of binary64 multiplication.

The three imports `LineSegments2`, `LineGeometry` and `LineMaterial` are not part
of the file; they are parameters of the development (`Imports`).
-/

namespace BlueMap

/-! ## Numbers: binary64 values and their product -/

/-- Number of binary digits of `n`, by halving at most `fuel` times. -/
def bitLengthAux : Nat → Nat → Nat
  | 0, _ => 0
  | fuel + 1, n => if n = 0 then 0 else bitLengthAux fuel (n / 2) + 1

/-- Number of binary digits of `n` (`0` for `0`). -/
def bitLength (n : Nat) : Nat := bitLengthAux n n

/-- A JavaScript Number. A finite value is `(-1)^neg * mant * 2^exp`. -/
inductive Number where
  | fin (neg : Bool) (mant : Nat) (exp : Int)
  | inf (neg : Bool)
  | nan
  deriving DecidableEq

/-- Value of `m / 2^s` rounded to the nearest integer, ties to even. -/
def roundNearestEven (m s : Nat) : Nat :=
  let q := m / 2 ^ s
  let r := m % 2 ^ s
  if 2 * r < 2 ^ s then q
  else if 2 ^ s < 2 * r then q + 1
  else if q % 2 = 0 then q else q + 1

/-- How many low bits of the exact significand `m` (at exponent `e`) do not fit
a binary64: the significand keeps 53 bits, and no bit below `2^-1074`. -/
def roundShift (m : Nat) (e : Int) : Nat :=
  (max ((bitLength m : Int) - 53) (-1074 - e)).toNat

/-- The binary64 nearest to the exact value `(-1)^neg * m * 2^e`
(round to nearest, ties to even; overflow gives an infinity). -/
def Number.round (neg : Bool) (m : Nat) (e : Int) : Number :=
  let s := roundShift m e
  let q := roundNearestEven m s
  if q ≠ 0 ∧ 1024 < (bitLength q : Int) + (e + s) then .inf neg else .fin neg q (e + s)

/-- The `*` operator on Numbers. -/
def Number.mul : Number → Number → Number
  | .nan, _ => .nan
  | _, .nan => .nan
  | .inf a, .inf b => .inf (a != b)
  | .inf a, .fin b m _ => if m = 0 then .nan else .inf (a != b)
  | .fin a m _, .inf b => if m = 0 then .nan else .inf (a != b)
  | .fin a m1 e1, .fin b m2 e2 => Number.round (a != b) (m1 * m2) (e1 + e2)

/-- A non-negative integer literal such as `0xffffff`. -/
def Number.ofNat (n : Nat) : Number := .fin false n 0

/-- The rational value of a finite Number. -/
def Number.toRat? : Number → Option ℚ
  | .fin neg m e => some ((if neg then -1 else 1) * (m : ℚ) * (2 : ℚ) ^ e)
  | _ => none

/-- A finite Number is a binary64: 53 significand bits, exponent in range. -/
def Number.IsDouble : Number → Prop
  | .fin _ m e => m < 2 ^ 53 ∧ -1074 ≤ e ∧ (bitLength m : Int) + e ≤ 1024
  | _ => True

/-- A Number `r` with `0 ≤ r < 1`, the range of `Math.random()`. -/
def Number.InUnitInterval (r : Number) : Prop :=
  ∃ q, r.toRat? = some q ∧ 0 ≤ q ∧ q < 1

/-! ## Values, objects and the world -/

/-- JavaScript values; objects (functions included) are references, and a
reference is a heap address, a natural number. -/
inductive Val where
  | undefined
  | null
  | bool (b : Bool)
  | num (n : Number)
  | str (s : String)
  | obj (r : Nat)
  deriving DecidableEq

/-- An ordinary object: its prototype link and its own data properties, in
insertion order. Accessors, non-writable properties and frozen objects are not
modelled. -/
structure Obj where
  proto : Val
  props : List (String × Val)
  deriving DecidableEq

/-- The global state: the heap (`next` is the first unused address) and the
random source, given as the sequence of values `Math.random` is still to return. -/
structure World where
  objs : Nat → Obj
  next : Nat
  rng : Nat → Number

/-- Completion of a piece of code: a normal result or a thrown value, each with
the world it leaves behind. -/
inductive Outcome (α : Type) where
  | ok (v : α) (w : World)
  | throw (e : Val) (w : World)

/-- The world a completion leaves behind. -/
def Outcome.world {α : Type} : Outcome α → World
  | .ok _ w => w
  | .throw _ w => w

/-- The result of a normal completion. -/
def Outcome.value? {α : Type} : Outcome α → Option α
  | .ok v _ => some v
  | .throw _ _ => none

/-- Allocation of a new object at the first unused address. -/
def World.alloc (w : World) (o : Obj) : Nat × World :=
  (w.next, { w with objs := Function.update w.objs w.next o, next := w.next + 1 })

/-- Own properties after `k = v`: an existing entry is overwritten in place,
a new one is appended. -/
def setEntry : List (String × Val) → String → Val → List (String × Val)
  | [], k, v => [(k, v)]
  | (k', v') :: rest, k, v =>
    if k' = k then (k, v) :: rest else (k', v') :: setEntry rest k v

/-- The own property `k` of an object, if it has one. -/
def Obj.own (o : Obj) (k : String) : Option Val := o.props.lookup k

/-- The assignment `r.k = v` on an ordinary object: sets the own property. -/
def World.setProp (w : World) (r : Nat) (k : String) (v : Val) : World :=
  let o : Obj := { proto := (w.objs r).proto, props := setEntry (w.objs r).props k v }
  { w with objs := Function.update w.objs r o }

/-- Property lookup along the prototype chain, at most `fuel` links. -/
def lookupChain (w : World) : Nat → Val → String → Val
  | fuel + 1, .obj r, k =>
    match (w.objs r).own k with
    | some v => v
    | none => lookupChain w fuel (w.objs r).proto k
  | _, _, _ => .undefined

/-- The property read `r.k`. A chain of allocated objects has fewer than
`next + 1` links. -/
def World.get (w : World) (r : Nat) (k : String) : Val :=
  lookupChain w (w.next + 1) (.obj r) k

/-- The call `Math.random()`: returns the next value of the random source and
advances it. -/
def mathRandom (w : World) : Number × World :=
  (w.rng 0, { w with rng := fun n => w.rng (n + 1) })

/-- The call `Object.assign(target, source)` for ordinary objects: every own property of
`source` is assigned on `target`, in order. -/
def objectAssign (w : World) (target source : Nat) : World :=
  (w.objs source).props.foldl (fun w p => w.setProp target p.1 p.2) w

/-! ## Constructors and `new` -/

/-- The code of a constructor function: receiver, arguments, world. -/
abbrev Ctor := Nat → List Val → World → Outcome Val

/-- A constructor function together with the value of its `prototype` property. -/
structure Class where
  body : Ctor
  prototype : Val

/-- What the module imports, and the two intrinsic prototypes it relies on. -/
structure Imports where
  LineSegments2 : Class
  LineGeometry : Class
  LineMaterial : Class
  objectPrototype : Val
  functionPrototype : Val

/-- The receiver `new C(...)` creates: a fresh object without own properties,
linked to `C.prototype` (to `Object.prototype` when that is not an object). -/
def newReceiver (objectPrototype : Val) (C : Class) (w : World) : Nat × World :=
  let proto := match C.prototype with
    | .obj p => Val.obj p
    | _ => objectPrototype
  w.alloc { proto := proto, props := [] }

/-- The operator `new C(args)`: the fresh receiver is passed to the body; the
result is the object the body returns, or else the receiver. -/
def construct (objectPrototype : Val) (C : Class) (args : List Val) (w : World) :
    Outcome Val :=
  let a := newReceiver objectPrototype C w
  match C.body a.1 args a.2 with
  | .throw e w2 => .throw e w2
  | .ok (.obj r) w2 => .ok (.obj r) w2
  | .ok _ w2 => .ok (.obj a.1) w2

/-! ## `Line2.js` -/

/-- The expression `Math.random() * 0xffffff` (line 9), for the value `r` drawn. -/
def Line2.randomColor (r : Number) : Number := r.mul (Number.ofNat 0xffffff)

/-- The object literal `{ color: Math.random() * 0xffffff }` (line 9). -/
def Line2.materialOptions (env : Imports) (w : World) : Nat × World :=
  let d := mathRandom w
  d.2.alloc
    { proto := env.objectPrototype, props := [("color", .num (Line2.randomColor d.1))] }

/-- The expression `new LineMaterial( { color: Math.random() * 0xffffff } )`
(line 9). -/
def Line2.defaultMaterial (env : Imports) (w : World) : Outcome Val :=
  let a := Line2.materialOptions env w
  construct env.objectPrototype env.LineMaterial [.obj a.1] a.2

/-- Line 8: `if ( geometry === undefined ) geometry = new LineGeometry();`. -/
def Line2.geometryArg (env : Imports) (geometry : Val) (w : World) : Outcome Val :=
  if geometry = .undefined then construct env.objectPrototype env.LineGeometry [] w
  else .ok geometry w

/-- Line 9: `if ( material === undefined ) material = new LineMaterial( ... );`. -/
def Line2.materialArg (env : Imports) (material : Val) (w : World) : Outcome Val :=
  if material = .undefined then Line2.defaultMaterial env w
  else .ok material w

/-- Lines 11 and 13: `LineSegments2.call( this, geometry, material );` and
`this.type = 'Line2';`. The function returns `undefined`. -/
def Line2.finish (env : Imports) (this : Nat) (geometry material : Val) (w : World) :
    Outcome Val :=
  match env.LineSegments2.body this [geometry, material] w with
  | .throw e w3 => .throw e w3
  | .ok _ w3 => .ok .undefined (w3.setProp this "type" (.str "Line2"))

/-- The function `Line2 ( geometry, material )` (lines 6 to 15), with receiver
`this`; a missing argument is `undefined`. -/
def Line2 (env : Imports) : Ctor := fun this args w =>
  match Line2.geometryArg env (args.getD 0 .undefined) w with
  | .throw e w1 => .throw e w1
  | .ok geometry w1 =>
    match Line2.materialArg env (args.getD 1 .undefined) w1 with
    | .throw e w2 => .throw e w2
    | .ok material w2 => Line2.finish env this geometry material w2

/-- What loading the module leaves behind: the function object `Line2`. -/
structure Module where
  line2 : Nat

/-- The module-level code: `var Line2 = function ...` creates the function
object and its initial prototype object; lines 17 to 23 then replace
`Line2.prototype` by `Object.assign( Object.create( LineSegments2.prototype ),
{ constructor: Line2, isLine2: true } )`. `Object.create` throws a `TypeError`
unless its argument is an object or `null`. -/
def loadModule (env : Imports) (w : World) : Outcome Module :=
  let f := w.alloc { proto := env.functionPrototype, props := [] }
  let d := f.2.alloc { proto := env.objectPrototype, props := [("constructor", .obj f.1)] }
  let w1 := d.2.setProp f.1 "prototype" (.obj d.1)
  let create (w : World) : Outcome Module :=
    let p := w.alloc { proto := env.LineSegments2.prototype, props := [] }
    let l := p.2.alloc { proto := env.objectPrototype,
                         props := [("constructor", .obj f.1), ("isLine2", .bool true)] }
    let w2 := objectAssign l.2 p.1 l.1
    .ok { line2 := f.1 } (w2.setProp f.1 "prototype" (.obj p.1))
  match env.LineSegments2.prototype with
  | .obj _ => create w1
  | .null => create w1
  | _ => .throw (.str "TypeError") w1

/-- The function `Line2` as a constructor: its code and the current value of
`Line2.prototype`. -/
def Line2.asClass (env : Imports) (md : Module) (w : World) : Class :=
  { body := Line2 env, prototype := w.get md.line2 "prototype" }

/-- The expression `new Line2( ...args )`. -/
def newLine2 (env : Imports) (md : Module) (args : List Val) (w : World) : Outcome Val :=
  construct env.objectPrototype (Line2.asClass env md w) args w

/-- The run of the code of `LineGeometry` that `new LineGeometry()` makes in
world `w`. -/
def Line2.geometryCall (env : Imports) (w : World) : Outcome Val :=
  let a := newReceiver env.objectPrototype env.LineGeometry w
  env.LineGeometry.body a.1 [] a.2

/-- The run of the code of `LineMaterial` that
`new LineMaterial( { color: Math.random() * 0xffffff } )` makes in world `w`. -/
def Line2.materialCall (env : Imports) (w : World) : Outcome Val :=
  let o := Line2.materialOptions env w
  let a := newReceiver env.objectPrototype env.LineMaterial o.2
  env.LineMaterial.body a.1 [.obj o.1] a.2

/-- The receiver `new Line2( ... )` creates in world `w`, and the world in which
the body of `Line2` starts. -/
def newLine2.receiver (env : Imports) (md : Module) (w : World) : Nat × World :=
  newReceiver env.objectPrototype (Line2.asClass env md w) w

/-! ## Conditions on the imported constructors -/

/-- A constructor that changes no object other than its receiver and the objects
it allocates itself, and releases no address. -/
structure Ctor.Framed (C : Ctor) : Prop where
  next_le : ∀ this args w v w', C this args w = .ok v w' → w.next ≤ w'.next
  others : ∀ this args w v w', C this args w = .ok v w' →
    ∀ x, x < w.next → x ≠ this → w'.objs x = w.objs x

/-- A constructor that leaves the prototype link of its receiver alone and does
not write a property `isLine2` on it. -/
def Ctor.KeepsFlag (C : Ctor) : Prop :=
  ∀ this args w v w', C this args w = .ok v w' →
    (w'.objs this).proto = (w.objs this).proto ∧
    (w'.objs this).own "isLine2" = (w.objs this).own "isLine2"

/-- A constructor that returns no object of its own, so that `new` yields the
receiver. -/
def Ctor.Plain (C : Ctor) : Prop :=
  ∀ this args w v w', C this args w = .ok v w' → ∀ r, v ≠ .obj r

/-- A constructor that does not use the random source. -/
def Ctor.LeavesRandom (C : Ctor) : Prop :=
  ∀ this args w v w', C this args w = .ok v w' → w'.rng = w.rng

/-- The state the module-level code establishes: the function object `Line2`
has the own property `prototype`, the object `P`, and `P` has the own property
`isLine2: true`. -/
def Installed (md : Module) (P : Nat) (w : World) : Prop :=
  md.line2 < w.next ∧ P < w.next ∧
  (w.objs md.line2).own "prototype" = some (.obj P) ∧
  (w.objs P).own "isLine2" = some (.bool true)

/-- The node `n` carries the tag and, through its prototype `P`, the flag: its
own `type` is `'Line2'`, it has no own `isLine2`, and its prototype `P` has the
own property `isLine2: true`. -/
def Tagged (P n : Nat) (w : World) : Prop :=
  (w.objs n).own "type" = some (.str "Line2") ∧
  (w.objs n).own "isLine2" = none ∧
  (w.objs n).proto = .obj P ∧
  (w.objs P).own "isLine2" = some (.bool true) ∧
  1 ≤ w.next

/-! ## Later changes to the geometry and the material of a node -/

/-- What a caller may do afterwards to the geometry or the material of a node:
replace the reference the node holds (`node.geometry = v`), or change the
contents of the object it refers to (`node.geometry.k = v`). -/
inductive Mutation where
  | replaceGeometry (v : Val)
  | replaceMaterial (v : Val)
  | writeGeometry (k : String) (v : Val)
  | writeMaterial (k : String) (v : Val)

/-- Whether `p` is the value `start` or one of its prototypes, at most `fuel`
links away. -/
def inChain (w : World) : Nat → Val → Val → Bool
  | fuel + 1, .obj r, p =>
    if Val.obj r = p then true else inChain w fuel (w.objs r).proto p
  | _, _, _ => false

/-- Whether `start` or one of its prototypes has an own data property `k`. -/
def dataOnChain (w : World) : Nat → Val → String → Bool
  | fuel + 1, .obj r, k =>
    match (w.objs r).own k with
    | some _ => true
    | none => dataOnChain w fuel (w.objs r).proto k
  | _, _, _ => false

/-- The prototype link of object `t` replaced by `v`. -/
def World.setProto (w : World) (t : Nat) (v : Val) : World :=
  let o : Obj := { proto := v, props := (w.objs t).props }
  { w with objs := Function.update w.objs t o }

/-- The setter of the accessor `__proto__` of `Object.prototype`, called on the
object `t` with value `v`: an object or `null` becomes the prototype of `t`,
unless the link would close a cycle or `t` is `Object.prototype` itself (the
setter then throws and nothing changes); any other value is ignored. -/
def World.protoSetter (objectPrototype : Val) (w : World) (t : Nat) (v : Val) : World :=
  if Val.obj t = objectPrototype then w
  else match v with
    | .obj p => if inChain w (w.next + 1) (.obj p) (.obj t) then w else w.setProto t (.obj p)
    | .null => w.setProto t .null
    | _ => w

/-- The assignment `target.k = v`. On a target that is not an object nothing is
stored (on `undefined` and `null` the statement throws before any change). On an
object the key `__proto__` reaches the setter of `Object.prototype` when the
object inherits from `Object.prototype` and no data property of that name lies
on its prototype chain; every other assignment sets the own data property. -/
def World.write (objectPrototype : Val) (w : World) (target : Val) (k : String) (v : Val) :
    World :=
  match target with
  | .obj t =>
    if k = "__proto__" ∧ dataOnChain w (w.next + 1) (.obj t) k = false ∧
        inChain w (w.next + 1) (.obj t) objectPrototype = true then
      w.protoSetter objectPrototype t v
    else w.setProp t k v
  | _ => w

/-- The effect of one mutation of node `n`. -/
def Mutation.apply (objectPrototype : Val) (n : Nat) : Mutation → World → World
  | .replaceGeometry v, w => w.setProp n "geometry" v
  | .replaceMaterial v, w => w.setProp n "material" v
  | .writeGeometry k v, w => w.write objectPrototype (w.get n "geometry") k v
  | .writeMaterial k v, w => w.write objectPrototype (w.get n "material") k v

/-- The effect of a sequence of mutations of node `n`. -/
def mutate (objectPrototype : Val) (n : Nat) : List Mutation → World → World
  | [], w => w
  | m :: ms, w => mutate objectPrototype n ms (m.apply objectPrototype n w)

/-- The mutation is a change to geometry or material state and not, through an
alias, an assignment to the tag, the flag or the prototype link of the node
themselves: when the object written to is the node `n` the property written is
none of `type`, `isLine2` and `__proto__`, and when it is the prototype object
`P` of the node the property is not `isLine2`. -/
def Mutation.SparesTag (n P : Nat) : Mutation → World → Prop
  | .writeGeometry k _, w =>
    (w.get n "geometry" = .obj n → k ≠ "type" ∧ k ≠ "isLine2" ∧ k ≠ "__proto__") ∧
    (w.get n "geometry" = .obj P → k ≠ "isLine2")
  | .writeMaterial k _, w =>
    (w.get n "material" = .obj n → k ≠ "type" ∧ k ≠ "isLine2" ∧ k ≠ "__proto__") ∧
    (w.get n "material" = .obj P → k ≠ "isLine2")
  | _, _ => True

instance Mutation.decidableSparesTag (n P : Nat) :
    (m : Mutation) → (w : World) → Decidable (m.SparesTag n P w)
  | .writeGeometry k _, w =>
    inferInstanceAs (Decidable
      ((w.get n "geometry" = .obj n → k ≠ "type" ∧ k ≠ "isLine2" ∧ k ≠ "__proto__") ∧
       (w.get n "geometry" = .obj P → k ≠ "isLine2")))
  | .writeMaterial k _, w =>
    inferInstanceAs (Decidable
      ((w.get n "material" = .obj n → k ≠ "type" ∧ k ≠ "isLine2" ∧ k ≠ "__proto__") ∧
       (w.get n "material" = .obj P → k ≠ "isLine2")))
  | .replaceGeometry _, _ => inferInstanceAs (Decidable True)
  | .replaceMaterial _, _ => inferInstanceAs (Decidable True)

/-- Every mutation of the sequence spares the tag in the world it is applied in. -/
def SpareTag (objectPrototype : Val) (n P : Nat) : List Mutation → World → Prop
  | [], _ => True
  | m :: ms, w =>
    m.SparesTag n P w ∧ SpareTag objectPrototype n P ms (m.apply objectPrototype n w)

instance decidableSpareTag (objectPrototype : Val) (n P : Nat) :
    (ms : List Mutation) → (w : World) → Decidable (SpareTag objectPrototype n P ms w)
  | [], _ => inferInstanceAs (Decidable True)
  | m :: ms, w =>
    @instDecidableAnd _ _ (Mutation.decidableSparesTag n P m w)
      (decidableSpareTag objectPrototype n P ms (m.apply objectPrototype n w))

/-! ## A concrete environment

The imports are not part of the file. The instances below follow what the
specification says of them and serve as the concrete inputs of the examples. -/

/-- Modelled from the spec: the constructor `LineGeometry` of the missing file
`LineGeometry.js`, "a new empty line-geometry instance": it leaves its receiver
without own properties. -/
def Example.LineGeometry : Ctor := fun _ _ w => .ok .undefined w

/-- Modelled from the spec: the constructor `LineMaterial` of the missing file
`LineMaterial.js`, "accepting a configuration option `color`": it stores the
`color` of its options object on the receiver. -/
def Example.LineMaterial : Ctor := fun this args w =>
  match args.getD 0 .undefined with
  | .obj o => .ok .undefined (w.setProp this "color" (w.get o "color"))
  | _ => .ok .undefined w

/-- Modelled from the spec: the constructor `LineSegments2` of the missing file
`LineSegments2.js`, "a two-argument constructor contract `(geometry, material)`":
it tags the receiver and stores both arguments on it. -/
def Example.LineSegments2 : Ctor := fun this args w =>
  .ok .undefined
    (((w.setProp this "type" (.str "LineSegments2")).setProp this "geometry"
      (args.getD 0 .undefined)).setProp this "material" (args.getD 1 .undefined))

/-- The example imports: `Object.prototype` is object 0, `Function.prototype`
object 1, and the prototypes of the three imports are objects 2, 3 and 4. -/
def Example.imports : Imports :=
  { LineSegments2 := { body := Example.LineSegments2, prototype := .obj 2 }
    LineGeometry := { body := Example.LineGeometry, prototype := .obj 3 }
    LineMaterial := { body := Example.LineMaterial, prototype := .obj 4 }
    objectPrototype := .obj 0
    functionPrototype := .obj 1 }

/-- The example world before the module is loaded: the five prototype objects,
and a random source whose `n`-th value is `n / 2^53`. -/
def Example.world : World :=
  { objs := fun r => if r = 0 then { proto := .null, props := [] }
                     else if r < 5 then { proto := .obj 0, props := [] }
                     else { proto := .null, props := [] }
    next := 5
    rng := fun n => .fin false n (-53) }

/-- The example world after the module is loaded. -/
def Example.loaded : World := (loadModule Example.imports Example.world).world

/-- The module in the example world: the function `Line2` is object 5 and
`Line2.prototype` is object 7. -/
def Example.module : Module := { line2 := 5 }

end BlueMap

namespace BlueMap

/-! ## Own properties and heap updates -/

theorem lookup_setEntry_same (l : List (String × Val)) (k : String) (v : Val) :
    (setEntry l k v).lookup k = some v := by
  induction l with
  | nil => simp [setEntry, List.lookup]
  | cons p rest ih =>
    obtain ⟨k', v'⟩ := p
    by_cases h : k' = k
    · simp [setEntry, h, List.lookup]
    · have h' : (k == k') = false := by simpa using fun e => h e.symm
      simp [setEntry, h, List.lookup, h', ih]

theorem lookup_setEntry_other (l : List (String × Val)) (k k' : String) (v : Val)
    (hk : k' ≠ k) : (setEntry l k v).lookup k' = l.lookup k' := by
  have hk' : (k' == k) = false := by simpa using hk
  induction l with
  | nil => simp [setEntry, List.lookup, hk']
  | cons p rest ih =>
    obtain ⟨k1, v1⟩ := p
    by_cases h : k1 = k
    · subst h
      simp [setEntry, List.lookup, hk']
    · simp only [setEntry, h, if_false, List.lookup, ih]

@[simp] theorem setProp_next (w : World) (r : Nat) (k : String) (v : Val) :
    (w.setProp r k v).next = w.next := rfl

@[simp] theorem setProp_rng (w : World) (r : Nat) (k : String) (v : Val) :
    (w.setProp r k v).rng = w.rng := rfl

theorem setProp_objs_ne (w : World) (r x : Nat) (k : String) (v : Val) (h : x ≠ r) :
    (w.setProp r k v).objs x = w.objs x := by
  simp [World.setProp, Function.update, h]

@[simp] theorem setProp_proto (w : World) (r x : Nat) (k : String) (v : Val) :
    ((w.setProp r k v).objs x).proto = (w.objs x).proto := by
  by_cases h : x = r
  · subst h; simp [World.setProp, Function.update]
  · rw [setProp_objs_ne w r x k v h]

@[simp] theorem setProp_own_same (w : World) (r : Nat) (k : String) (v : Val) :
    ((w.setProp r k v).objs r).own k = some v := by
  simp [World.setProp, Function.update, Obj.own, lookup_setEntry_same]

theorem setProp_own_other (w : World) (r x : Nat) (k k' : String) (v : Val) (hk : k' ≠ k) :
    ((w.setProp r k v).objs x).own k' = (w.objs x).own k' := by
  by_cases h : x = r
  · subst h; simp [World.setProp, Function.update, Obj.own, lookup_setEntry_other _ _ _ _ hk]
  · rw [setProp_objs_ne w r x k v h]

theorem get_of_own (w : World) (r : Nat) (k : String) (v : Val)
    (h : (w.objs r).own k = some v) : w.get r k = v := by
  simp [World.get, lookupChain, h]

theorem get_of_proto_own (w : World) (r p : Nat) (k : String) (v : Val) (hn : 1 ≤ w.next)
    (h : (w.objs r).own k = none) (hp : (w.objs r).proto = .obj p)
    (hv : (w.objs p).own k = some v) : w.get r k = v := by
  obtain ⟨n, hn'⟩ : ∃ n, w.next = n + 1 := ⟨w.next - 1, (Nat.sub_add_cancel hn).symm⟩
  simp [World.get, lookupChain, h, hp, hv, hn']

@[simp] theorem alloc_fst (w : World) (o : Obj) : (w.alloc o).1 = w.next := rfl

@[simp] theorem alloc_next (w : World) (o : Obj) : (w.alloc o).2.next = w.next + 1 := rfl

@[simp] theorem alloc_rng (w : World) (o : Obj) : (w.alloc o).2.rng = w.rng := rfl

@[simp] theorem alloc_objs_new (w : World) (o : Obj) : (w.alloc o).2.objs w.next = o := by
  simp [World.alloc]

theorem alloc_objs_old (w : World) (o : Obj) (x : Nat) (h : x ≠ w.next) :
    (w.alloc o).2.objs x = w.objs x := by
  simp [World.alloc, Function.update, h]

/-! ## The arguments handed to the base constructor -/

theorem geometryArg_supplied (env : Imports) (g : Val) (w : World) (hg : g ≠ .undefined) :
    Line2.geometryArg env g w = .ok g w := by
  simp [Line2.geometryArg, hg]

theorem materialArg_supplied (env : Imports) (m : Val) (w : World) (hm : m ≠ .undefined) :
    Line2.materialArg env m w = .ok m w := by
  simp [Line2.materialArg, hm]

theorem construct_ok (op : Val) (C : Class) (args : List Val) (w : World) (v : Val)
    (w' : World) (h : construct op C args w = .ok v w') : ∃ r, v = .obj r := by
  simp only [construct] at h
  split at h
  · cases h
  · cases h; exact ⟨_, rfl⟩
  · cases h; exact ⟨_, rfl⟩

theorem geometryArg_omitted (env : Imports) (w : World) :
    Line2.geometryArg env .undefined w = construct env.objectPrototype env.LineGeometry [] w := by
  simp [Line2.geometryArg]

theorem materialArg_omitted (env : Imports) (w : World) :
    Line2.materialArg env .undefined w = Line2.defaultMaterial env w := by
  simp [Line2.materialArg]

/-- C2: an argument the caller supplies (one that is not `undefined`) reaches the
base constructor as the very value supplied, and no default is constructed for
it. With both supplied, `Line2` is the base call on exactly `(geometry,
material)` in the unchanged world followed by the assignment of `type`; with
only the geometry supplied the one thing that runs before the base call is the
construction of the default material, and the base call receives the supplied
geometry; symmetrically for a supplied material. -/
theorem Line2_supplied_arguments_preserved (env : Imports) (this : Nat) (g m : Val)
    (w : World) :
    (g ≠ .undefined → m ≠ .undefined →
      Line2 env this [g, m] w =
        match env.LineSegments2.body this [g, m] w with
        | .throw e w3 => .throw e w3
        | .ok _ w3 => .ok .undefined (w3.setProp this "type" (.str "Line2"))) ∧
    (g ≠ .undefined →
      Line2 env this [g] w =
        match Line2.defaultMaterial env w with
        | .throw e w2 => .throw e w2
        | .ok m' w2 => Line2.finish env this g m' w2) ∧
    (m ≠ .undefined →
      Line2 env this [.undefined, m] w =
        match construct env.objectPrototype env.LineGeometry [] w with
        | .throw e w1 => .throw e w1
        | .ok g' w1 => Line2.finish env this g' m w1) := by
  refine ⟨fun hg hm => ?_, fun hg => ?_, fun hm => ?_⟩
  · simp [Line2, geometryArg_supplied env g w hg, materialArg_supplied env m w hm,
      Line2.finish]
  · simp [Line2, geometryArg_supplied env g w hg, materialArg_omitted]
  · simp only [Line2, List.getD_cons_zero, List.getD_cons_succ, geometryArg_omitted]
    cases construct env.objectPrototype env.LineGeometry [] w with
    | ok g' w1 => simp [materialArg_supplied env m w1 hm]
    | throw e w1 => rfl

theorem Line2_supplied_arguments_preserved_witness :
    (Line2 Example.imports 9 [.obj 3, .obj 4] Example.loaded =
        match Example.imports.LineSegments2.body 9 [.obj 3, .obj 4] Example.loaded with
        | .throw e w3 => .throw e w3
        | .ok _ w3 => .ok .undefined (w3.setProp 9 "type" (.str "Line2"))) ∧
    (Line2 Example.imports 9 [.obj 3] Example.loaded =
        match Line2.defaultMaterial Example.imports Example.loaded with
        | .throw e w2 => .throw e w2
        | .ok m' w2 => Line2.finish Example.imports 9 (.obj 3) m' w2) ∧
    (Line2 Example.imports 9 [.undefined, .obj 4] Example.loaded =
        match construct Example.imports.objectPrototype Example.imports.LineGeometry []
          Example.loaded with
        | .throw e w1 => .throw e w1
        | .ok g' w1 => Line2.finish Example.imports 9 g' (.obj 4) w1) :=
  ⟨(Line2_supplied_arguments_preserved Example.imports 9 (.obj 3) (.obj 4)
      Example.loaded).1 (by decide) (by decide),
   (Line2_supplied_arguments_preserved Example.imports 9 (.obj 3) (.obj 4)
      Example.loaded).2.1 (by decide),
   (Line2_supplied_arguments_preserved Example.imports 9 (.obj 3) (.obj 4)
      Example.loaded).2.2 (by decide)⟩

/-- C3, as stated, fails: in the example world `new Line2( null, material )` runs
the body of `Line2` on the fresh receiver 9, that body calls `LineSegments2` on
`(null, material)`, and the node the expression returns holds `null` as its
geometry; likewise `new Line2( geometry, null )` calls `LineSegments2` on
`(geometry, null)` and the node holds `null` as its material. -/
theorem Line2_null_arguments_reach_base :
    Line2 Example.imports 9 [.null, .obj 4]
        (newLine2.receiver Example.imports Example.module Example.loaded).2 =
      (match Example.imports.LineSegments2.body 9 [.null, .obj 4]
          (newLine2.receiver Example.imports Example.module Example.loaded).2 with
        | .throw e w3 => .throw e w3
        | .ok _ w3 => .ok .undefined (w3.setProp 9 "type" (.str "Line2"))) ∧
    (newLine2 Example.imports Example.module [.null, .obj 4] Example.loaded).value? =
      some (.obj 9) ∧
    (newLine2 Example.imports Example.module [.null, .obj 4] Example.loaded).world.get 9
      "geometry" = .null ∧
    (newLine2 Example.imports Example.module [.null, .obj 4] Example.loaded).world.get 9
      "material" = .obj 4 ∧
    Line2 Example.imports 9 [.obj 3, .null]
        (newLine2.receiver Example.imports Example.module Example.loaded).2 =
      (match Example.imports.LineSegments2.body 9 [.obj 3, .null]
          (newLine2.receiver Example.imports Example.module Example.loaded).2 with
        | .throw e w3 => .throw e w3
        | .ok _ w3 => .ok .undefined (w3.setProp 9 "type" (.str "Line2"))) ∧
    (newLine2 Example.imports Example.module [.obj 3, .null] Example.loaded).value? =
      some (.obj 9) ∧
    (newLine2 Example.imports Example.module [.obj 3, .null] Example.loaded).world.get 9
      "geometry" = .obj 3 ∧
    (newLine2 Example.imports Example.module [.obj 3, .null] Example.loaded).world.get 9
      "material" = .null :=
  ⟨rfl, by decide, by decide, by decide, rfl, by decide, by decide, by decide⟩

/-- C3, amended: whatever the two arguments are, when lines 8 and 9 leave
`(g', m')` the function `Line2` is the call of `LineSegments2` on the receiver
with exactly `[g', m']`, followed by the assignment of `type`. An omitted
(`undefined`) geometry has been replaced by the object `new LineGeometry()`
returned, an omitted material by the object `new LineMaterial( ... )` returned;
any other argument is handed on as it is, nothing being constructed for it. So
when neither argument is `null`, the geometry and the material the base
constructor receives are both non-null (neither `null` nor `undefined`). -/
theorem Line2_base_arguments_non_null (env : Imports) (this : Nat) (g m : Val) (w : World)
    (g' m' : Val) (w1 w2 : World)
    (hg : Line2.geometryArg env g w = .ok g' w1)
    (hm : Line2.materialArg env m w1 = .ok m' w2) :
    Line2 env this [g, m] w =
      (match env.LineSegments2.body this [g', m'] w2 with
        | .throw e w3 => .throw e w3
        | .ok _ w3 => .ok .undefined (w3.setProp this "type" (.str "Line2"))) ∧
    (g = .undefined → (∃ r, g' = .obj r) ∧
      construct env.objectPrototype env.LineGeometry [] w = .ok g' w1) ∧
    (g ≠ .undefined → g' = g ∧ w1 = w) ∧
    (m = .undefined → (∃ r, m' = .obj r) ∧
      construct env.objectPrototype env.LineMaterial [.obj w1.next]
        (Line2.materialOptions env w1).2 = .ok m' w2) ∧
    (m ≠ .undefined → m' = m ∧ w2 = w1) ∧
    (g ≠ .null → m ≠ .null →
      g' ≠ .null ∧ g' ≠ .undefined ∧ m' ≠ .null ∧ m' ≠ .undefined) := by
  have h1 : g = .undefined → (∃ r, g' = .obj r) ∧
      construct env.objectPrototype env.LineGeometry [] w = .ok g' w1 := by
    intro h; subst h
    rw [geometryArg_omitted] at hg
    exact ⟨construct_ok _ _ _ _ _ _ hg, hg⟩
  have h2 : g ≠ .undefined → g' = g ∧ w1 = w := by
    intro h
    rw [geometryArg_supplied env g w h] at hg
    cases hg; exact ⟨rfl, rfl⟩
  have h3 : m = .undefined → (∃ r, m' = .obj r) ∧
      construct env.objectPrototype env.LineMaterial [.obj w1.next]
        (Line2.materialOptions env w1).2 = .ok m' w2 := by
    intro h; subst h
    rw [materialArg_omitted] at hm
    exact ⟨construct_ok _ _ _ _ _ _ hm, hm⟩
  have h4 : m ≠ .undefined → m' = m ∧ w2 = w1 := by
    intro h
    rw [materialArg_supplied env m w1 h] at hm
    cases hm; exact ⟨rfl, rfl⟩
  refine ⟨by simp [Line2, hg, hm, Line2.finish], h1, h2, h3, h4, fun hgn hmn => ?_⟩
  have hg' : g' ≠ .null ∧ g' ≠ .undefined := by
    by_cases h : g = .undefined
    · obtain ⟨r, hr⟩ := (h1 h).1; subst hr; simp
    · rw [(h2 h).1]; exact ⟨hgn, h⟩
  have hm' : m' ≠ .null ∧ m' ≠ .undefined := by
    by_cases h : m = .undefined
    · obtain ⟨r, hr⟩ := (h3 h).1; subst hr; simp
    · rw [(h4 h).1]; exact ⟨hmn, h⟩
  exact ⟨hg'.1, hg'.2, hm'.1, hm'.2⟩

theorem Line2_base_arguments_non_null_witness :
    Line2 Example.imports 9 [.undefined, .obj 4]
        (newLine2.receiver Example.imports Example.module Example.loaded).2 =
      (match Example.imports.LineSegments2.body 9 [.obj 10, .obj 4]
          (Line2.geometryArg Example.imports .undefined
            (newLine2.receiver Example.imports Example.module Example.loaded).2).world with
        | .throw e w3 => .throw e w3
        | .ok _ w3 => .ok .undefined (w3.setProp 9 "type" (.str "Line2"))) ∧
    (Val.undefined = .undefined → (∃ r, Val.obj 10 = .obj r) ∧
      construct Example.imports.objectPrototype Example.imports.LineGeometry []
          (newLine2.receiver Example.imports Example.module Example.loaded).2 =
        .ok (.obj 10) (Line2.geometryArg Example.imports .undefined
          (newLine2.receiver Example.imports Example.module Example.loaded).2).world) ∧
    (Val.obj 4 ≠ .undefined → Val.obj 4 = Val.obj 4 ∧
      (Line2.geometryArg Example.imports .undefined
        (newLine2.receiver Example.imports Example.module Example.loaded).2).world =
      (Line2.geometryArg Example.imports .undefined
        (newLine2.receiver Example.imports Example.module Example.loaded).2).world) ∧
    (Val.undefined ≠ .null → Val.obj 4 ≠ .null →
      Val.obj 10 ≠ .null ∧ Val.obj 10 ≠ .undefined ∧ Val.obj 4 ≠ .null ∧
        Val.obj 4 ≠ .undefined) := by
  obtain ⟨h1, h2, _, _, h5, h6⟩ :=
    Line2_base_arguments_non_null Example.imports 9 .undefined (.obj 4)
      (newLine2.receiver Example.imports Example.module Example.loaded).2
      (.obj 10) (.obj 4)
      (Line2.geometryArg Example.imports .undefined
        (newLine2.receiver Example.imports Example.module Example.loaded).2).world
      (Line2.geometryArg Example.imports .undefined
        (newLine2.receiver Example.imports Example.module Example.loaded).2).world rfl rfl
  exact ⟨h1, h2, h5, h6⟩

/-! ## What `Line2` adds to the base constructor -/

/-- C10: when lines 8 and 9 leave `(g', m')` and the base constructor, called on
the receiver with `(g', m')`, returns in world `w3`, `Line2` returns in a world
that differs from `w3` in one place only: the own property `type` of the
receiver is `'Line2'`, whatever the base constructor left there. Every other own
property of the receiver, its prototype link, every other object, the allocation
counter and the random source are as the base constructor left them. -/
theorem Line2_adds_only_type (env : Imports) (this : Nat) (g m g' m' v : Val)
    (w w1 w2 w3 : World)
    (hg : Line2.geometryArg env g w = .ok g' w1)
    (hm : Line2.materialArg env m w1 = .ok m' w2)
    (hb : env.LineSegments2.body this [g', m'] w2 = .ok v w3) :
    ∃ w4, Line2 env this [g, m] w = .ok .undefined w4 ∧
      (w4.objs this).own "type" = some (.str "Line2") ∧
      (∀ k, k ≠ "type" → (w4.objs this).own k = (w3.objs this).own k) ∧
      (w4.objs this).props = setEntry (w3.objs this).props "type" (.str "Line2") ∧
      (w4.objs this).proto = (w3.objs this).proto ∧
      (∀ x, x ≠ this → w4.objs x = w3.objs x) ∧
      w4.next = w3.next ∧ w4.rng = w3.rng := by
  refine ⟨w3.setProp this "type" (.str "Line2"), by simp [Line2, hg, hm, Line2.finish, hb],
    setProp_own_same _ _ _ _, fun k hk => setProp_own_other _ _ _ _ _ _ hk, ?_,
    setProp_proto _ _ _ _ _, fun x hx => setProp_objs_ne _ _ _ _ _ hx, rfl, rfl⟩
  simp [World.setProp]

theorem Line2_adds_only_type_witness :
    ∃ w4, Line2 Example.imports 9 [.obj 3, .obj 4] Example.loaded = .ok .undefined w4 ∧
      (w4.objs 9).own "type" = some (.str "Line2") ∧
      (∀ k, k ≠ "type" → (w4.objs 9).own k =
        (((Example.LineSegments2 9 [.obj 3, .obj 4] Example.loaded).world).objs 9).own k) ∧
      (w4.objs 9).props = setEntry
        (((Example.LineSegments2 9 [.obj 3, .obj 4] Example.loaded).world).objs 9).props
        "type" (.str "Line2") ∧
      (w4.objs 9).proto =
        (((Example.LineSegments2 9 [.obj 3, .obj 4] Example.loaded).world).objs 9).proto ∧
      (∀ x, x ≠ 9 → w4.objs x =
        ((Example.LineSegments2 9 [.obj 3, .obj 4] Example.loaded).world).objs x) ∧
      w4.next = ((Example.LineSegments2 9 [.obj 3, .obj 4] Example.loaded).world).next ∧
      w4.rng = ((Example.LineSegments2 9 [.obj 3, .obj 4] Example.loaded).world).rng :=
  Line2_adds_only_type Example.imports 9 (.obj 3) (.obj 4) (.obj 3) (.obj 4) .undefined
    Example.loaded Example.loaded Example.loaded
    (Example.LineSegments2 9 [.obj 3, .obj 4] Example.loaded).world rfl rfl rfl

/-! ## Failure -/

theorem construct_throw_iff (op : Val) (C : Class) (args : List Val) (w : World) (e : Val)
    (w' : World) :
    construct op C args w = .throw e w' ↔
      C.body (newReceiver op C w).1 args (newReceiver op C w).2 = .throw e w' := by
  simp only [construct]
  constructor
  · intro h
    split at h
    · next h1 => rw [h1]; exact h
    · cases h
    · cases h
  · intro h
    rw [h]

theorem construct_of_body_undefined (op : Val) (C : Class) (args : List Val) (w w1 : World)
    (h : C.body (newReceiver op C w).1 args (newReceiver op C w).2 = .ok .undefined w1) :
    construct op C args w = .ok (.obj (newReceiver op C w).1) w1 := by
  simp only [construct]
  rw [h]

theorem geometryArg_throw_iff (env : Imports) (g : Val) (w : World) (e : Val) (w' : World) :
    Line2.geometryArg env g w = .throw e w' ↔
      g = .undefined ∧ Line2.geometryCall env w = .throw e w' := by
  by_cases hg : g = .undefined
  · subst hg
    rw [geometryArg_omitted, construct_throw_iff]
    simp [Line2.geometryCall]
  · simp [geometryArg_supplied env g w hg, hg]

theorem materialArg_throw_iff (env : Imports) (m : Val) (w : World) (e : Val) (w' : World) :
    Line2.materialArg env m w = .throw e w' ↔
      m = .undefined ∧ Line2.materialCall env w = .throw e w' := by
  by_cases hm : m = .undefined
  · subst hm
    rw [materialArg_omitted]
    simp only [Line2.defaultMaterial, construct_throw_iff]
    simp [Line2.materialCall]
  · simp [materialArg_supplied env m w hm, hm]

theorem Line2_throw_iff (env : Imports) (this : Nat) (args : List Val) (w : World) (e : Val)
    (w' : World) :
    Line2 env this args w = .throw e w' ↔
      Line2.geometryArg env (args.getD 0 .undefined) w = .throw e w' ∨
      (∃ g' w1, Line2.geometryArg env (args.getD 0 .undefined) w = .ok g' w1 ∧
        Line2.materialArg env (args.getD 1 .undefined) w1 = .throw e w') ∨
      (∃ g' w1 m' w2, Line2.geometryArg env (args.getD 0 .undefined) w = .ok g' w1 ∧
        Line2.materialArg env (args.getD 1 .undefined) w1 = .ok m' w2 ∧
        env.LineSegments2.body this [g', m'] w2 = .throw e w') := by
  simp only [Line2]
  generalize args.getD 0 .undefined = g
  generalize args.getD 1 .undefined = m
  cases hG : Line2.geometryArg env g w with
  | throw e1 w1 => simp
  | ok g' w1 =>
    dsimp only
    cases hM : Line2.materialArg env m w1 with
    | throw e2 w2 =>
      dsimp only
      constructor
      · intro h
        exact Or.inr (Or.inl ⟨g', w1, rfl, hM.trans h⟩)
      · rintro (h | ⟨g1, w11, h1, h2⟩ | ⟨g1, w11, m1, w21, h1, h2, _⟩)
        · cases h
        · cases h1; exact hM.symm.trans h2
        · cases h1; rw [hM] at h2; cases h2
    | ok m' w2 =>
      dsimp only [Line2.finish]
      constructor
      · intro h
        cases hB : env.LineSegments2.body this [g', m'] w2 with
        | throw e3 w3 =>
          rw [hB] at h
          exact Or.inr (Or.inr ⟨g', w1, m', w2, rfl, hM, hB.trans h⟩)
        | ok v w3 => rw [hB] at h; cases h
      · rintro (h | ⟨g1, w11, h1, h2⟩ | ⟨g1, w11, m1, w21, h1, h2, h3⟩)
        · cases h
        · cases h1; rw [hM] at h2; cases h2
        · cases h1
          rw [hM] at h2
          cases h2
          rw [h3]

theorem Line2_returns_undefined (env : Imports) (this : Nat) (args : List Val) (w : World)
    (v : Val) (w' : World) (h : Line2 env this args w = .ok v w') : v = .undefined := by
  simp only [Line2] at h
  split at h
  · cases h
  · split at h
    · cases h
    · simp only [Line2.finish] at h
      split at h
      · cases h
      · cases h; rfl

/-- C9: `new Line2( ...args )` throws exactly when one of the runs of collaborator
code it makes throws, and then it throws that very completion: the run of
`LineGeometry` (made only for an omitted geometry), or else the run of
`LineMaterial` (made only for an omitted material), or else the run of
`LineSegments2` on the receiver. No argument value makes `Line2` itself throw:
in every other case the expression returns the receiver it created. -/
theorem newLine2_throws_iff_collaborator_throws (env : Imports) (md : Module)
    (args : List Val) (w : World) :
    (∀ e w', newLine2 env md args w = .throw e w' ↔
      (args.getD 0 .undefined = .undefined ∧
        Line2.geometryCall env (newLine2.receiver env md w).2 = .throw e w') ∨
      (∃ g' w1, Line2.geometryArg env (args.getD 0 .undefined)
          (newLine2.receiver env md w).2 = .ok g' w1 ∧
        args.getD 1 .undefined = .undefined ∧ Line2.materialCall env w1 = .throw e w') ∨
      (∃ g' w1 m' w2, Line2.geometryArg env (args.getD 0 .undefined)
          (newLine2.receiver env md w).2 = .ok g' w1 ∧
        Line2.materialArg env (args.getD 1 .undefined) w1 = .ok m' w2 ∧
        env.LineSegments2.body (newLine2.receiver env md w).1 [g', m'] w2 = .throw e w')) ∧
    ((∃ e w', newLine2 env md args w = .throw e w') ∨
      (∃ w', newLine2 env md args w = .ok (.obj (newLine2.receiver env md w).1) w')) := by
  constructor
  · intro e w'
    rw [newLine2, construct_throw_iff]
    show Line2 env (newLine2.receiver env md w).1 args (newLine2.receiver env md w).2 = _ ↔ _
    rw [Line2_throw_iff]
    simp only [geometryArg_throw_iff, materialArg_throw_iff]
  · cases h : Line2 env (newLine2.receiver env md w).1 args (newLine2.receiver env md w).2 with
    | throw e1 w1 =>
      exact Or.inl ⟨e1, w1, (construct_throw_iff env.objectPrototype
        (Line2.asClass env md w) args w e1 w1).2 h⟩
    | ok v w1 =>
      have hv := Line2_returns_undefined _ _ _ _ _ _ h
      subst hv
      exact Or.inr ⟨w1, construct_of_body_undefined env.objectPrototype
        (Line2.asClass env md w) args w w1 h⟩

/-! ## Frames -/

theorem Tagged.get_type {P n : Nat} {w : World} (h : Tagged P n w) :
    w.get n "type" = .str "Line2" :=
  get_of_own w n "type" _ h.1

theorem Tagged.get_isLine2 {P n : Nat} {w : World} (h : Tagged P n w) :
    w.get n "isLine2" = .bool true :=
  get_of_proto_own w n P "isLine2" _ h.2.2.2.2 h.2.1 h.2.2.1 h.2.2.2.1

theorem newReceiver_fst (op : Val) (C : Class) (w : World) :
    (newReceiver op C w).1 = w.next := rfl

theorem newReceiver_next (op : Val) (C : Class) (w : World) :
    (newReceiver op C w).2.next = w.next + 1 := rfl

theorem newReceiver_rng (op : Val) (C : Class) (w : World) :
    (newReceiver op C w).2.rng = w.rng := rfl

theorem newReceiver_objs_old (op : Val) (C : Class) (w : World) (x : Nat) (h : x ≠ w.next) :
    (newReceiver op C w).2.objs x = w.objs x :=
  alloc_objs_old _ _ _ h

theorem construct_cases (op : Val) (C : Class) (args : List Val) (w : World) (v : Val)
    (w' : World) (h : construct op C args w = .ok v w') :
    ∃ v0, C.body w.next args (newReceiver op C w).2 = .ok v0 w' ∧
      ((∃ r, v0 = .obj r ∧ v = v0) ∨ ((∀ r, v0 ≠ .obj r) ∧ v = .obj w.next)) := by
  simp only [construct] at h
  split at h
  · cases h
  · next r w2 hb => cases h; exact ⟨_, hb, Or.inl ⟨_, rfl, rfl⟩⟩
  · next v0 w2 hne hb =>
    cases h
    exact ⟨v0, hb, Or.inr ⟨fun r hr => hne r hr, rfl⟩⟩

theorem construct_frame (op : Val) (C : Class) (args : List Val) (w : World) (v : Val)
    (w' : World) (hF : C.body.Framed) (h : construct op C args w = .ok v w') :
    w.next + 1 ≤ w'.next ∧ ∀ x, x < w.next → w'.objs x = w.objs x := by
  obtain ⟨v0, hb, _⟩ := construct_cases op C args w v w' h
  refine ⟨hF.next_le _ _ _ _ _ hb, fun x hx => ?_⟩
  rw [hF.others _ _ _ _ _ hb x (by rw [newReceiver_next]; omega) (by omega)]
  exact newReceiver_objs_old op C w x (by omega)

theorem construct_plain (op : Val) (C : Class) (args : List Val) (w : World) (v : Val)
    (w' : World) (hP : C.body.Plain) (h : construct op C args w = .ok v w') :
    v = .obj w.next := by
  obtain ⟨v0, hb, hv | hv⟩ := construct_cases op C args w v w' h
  · obtain ⟨r, hr, _⟩ := hv
    exact absurd hr (hP _ _ _ _ _ hb r)
  · exact hv.2

theorem construct_rng (op : Val) (C : Class) (args : List Val) (w : World) (v : Val)
    (w' : World) (hR : C.body.LeavesRandom) (h : construct op C args w = .ok v w') :
    w'.rng = w.rng := by
  obtain ⟨v0, hb, _⟩ := construct_cases op C args w v w' h
  rw [hR _ _ _ _ _ hb, newReceiver_rng]

theorem materialOptions_fst (env : Imports) (w : World) :
    (Line2.materialOptions env w).1 = w.next := rfl

theorem materialOptions_next (env : Imports) (w : World) :
    (Line2.materialOptions env w).2.next = w.next + 1 := rfl

theorem materialOptions_rng (env : Imports) (w : World) :
    (Line2.materialOptions env w).2.rng = fun n => w.rng (n + 1) := rfl

theorem materialOptions_objs_old (env : Imports) (w : World) (x : Nat) (h : x ≠ w.next) :
    (Line2.materialOptions env w).2.objs x = w.objs x := by
  simp only [Line2.materialOptions]
  rw [alloc_objs_old _ _ _ (by simpa [mathRandom] using h)]
  rfl

theorem materialOptions_color (env : Imports) (w : World) :
    ((Line2.materialOptions env w).2.objs w.next).own "color" =
      some (.num (Line2.randomColor (w.rng 0))) := by
  simp [Line2.materialOptions, mathRandom, World.alloc, Obj.own, List.lookup]

theorem defaultMaterial_frame (env : Imports) (w : World) (v : Val) (w' : World)
    (hF : env.LineMaterial.body.Framed) (h : Line2.defaultMaterial env w = .ok v w') :
    w.next + 2 ≤ w'.next ∧ ∀ x, x < w.next → w'.objs x = w.objs x := by
  have h1 := construct_frame _ _ _ _ _ _ hF h
  rw [materialOptions_next] at h1
  refine ⟨by omega, fun x hx => ?_⟩
  rw [h1.2 x (by omega), materialOptions_objs_old env w x (by omega)]

theorem geometryArg_frame (env : Imports) (g : Val) (w : World) (v : Val) (w' : World)
    (hF : env.LineGeometry.body.Framed) (h : Line2.geometryArg env g w = .ok v w') :
    w.next ≤ w'.next ∧ ∀ x, x < w.next → w'.objs x = w.objs x := by
  by_cases hg : g = .undefined
  · subst hg
    rw [geometryArg_omitted] at h
    have := construct_frame _ _ _ _ _ _ hF h
    exact ⟨by omega, this.2⟩
  · rw [geometryArg_supplied env g w hg] at h
    cases h
    exact ⟨le_refl _, fun _ _ => rfl⟩

theorem materialArg_frame (env : Imports) (m : Val) (w : World) (v : Val) (w' : World)
    (hF : env.LineMaterial.body.Framed) (h : Line2.materialArg env m w = .ok v w') :
    w.next ≤ w'.next ∧ ∀ x, x < w.next → w'.objs x = w.objs x := by
  by_cases hm : m = .undefined
  · subst hm
    rw [materialArg_omitted] at h
    have := defaultMaterial_frame _ _ _ _ hF h
    exact ⟨by omega, this.2⟩
  · rw [materialArg_supplied env m w hm] at h
    cases h
    exact ⟨le_refl _, fun _ _ => rfl⟩

theorem Line2_ok_cases (env : Imports) (this : Nat) (args : List Val) (w : World) (v : Val)
    (w' : World) (h : Line2 env this args w = .ok v w') :
    ∃ g' w1 m' w2 v3 w3,
      Line2.geometryArg env (args.getD 0 .undefined) w = .ok g' w1 ∧
      Line2.materialArg env (args.getD 1 .undefined) w1 = .ok m' w2 ∧
      env.LineSegments2.body this [g', m'] w2 = .ok v3 w3 ∧
      w' = w3.setProp this "type" (.str "Line2") := by
  simp only [Line2] at h
  cases hG : Line2.geometryArg env (args.getD 0 .undefined) w with
  | throw e1 w1 => rw [hG] at h; cases h
  | ok g' w1 =>
    rw [hG] at h
    dsimp only at h
    cases hM : Line2.materialArg env (args.getD 1 .undefined) w1 with
    | throw e2 w2 => rw [hM] at h; cases h
    | ok m' w2 =>
      rw [hM] at h
      dsimp only [Line2.finish] at h
      cases hB : env.LineSegments2.body this [g', m'] w2 with
      | throw e3 w3 => rw [hB] at h; cases h
      | ok v3 w3 =>
        rw [hB] at h
        cases h
        exact ⟨g', w1, m', w2, v3, w3, rfl, hM, hB, rfl⟩

theorem asClass_prototype (env : Imports) (md : Module) (P : Nat) (w : World)
    (hI : Installed md P w) : (Line2.asClass env md w).prototype = .obj P :=
  get_of_own w md.line2 "prototype" _ hI.2.2.1

theorem receiver_fst (env : Imports) (md : Module) (w : World) :
    (newLine2.receiver env md w).1 = w.next := rfl

theorem receiver_next (env : Imports) (md : Module) (w : World) :
    (newLine2.receiver env md w).2.next = w.next + 1 := rfl

theorem receiver_rng (env : Imports) (md : Module) (w : World) :
    (newLine2.receiver env md w).2.rng = w.rng := rfl

theorem receiver_objs_old (env : Imports) (md : Module) (w : World) (x : Nat)
    (h : x ≠ w.next) : (newLine2.receiver env md w).2.objs x = w.objs x :=
  alloc_objs_old _ _ _ h

theorem receiver_objs_new (env : Imports) (md : Module) (P : Nat) (w : World)
    (hI : Installed md P w) :
    (newLine2.receiver env md w).2.objs w.next = { proto := .obj P, props := [] } := by
  simp only [newLine2.receiver, newReceiver, asClass_prototype env md P w hI]
  exact alloc_objs_new _ _

theorem newLine2_ok_cases (env : Imports) (md : Module) (args : List Val) (w : World)
    (node : Val) (w' : World) (h : newLine2 env md args w = .ok node w') :
    node = .obj w.next ∧
    ∃ g' w1 m' w2 v3 w3,
      Line2.geometryArg env (args.getD 0 .undefined) (newLine2.receiver env md w).2 =
        .ok g' w1 ∧
      Line2.materialArg env (args.getD 1 .undefined) w1 = .ok m' w2 ∧
      env.LineSegments2.body w.next [g', m'] w2 = .ok v3 w3 ∧
      w' = w3.setProp w.next "type" (.str "Line2") := by
  obtain ⟨v0, hb, hv⟩ := construct_cases _ _ _ _ _ _ h
  have hb' : Line2 env w.next args (newLine2.receiver env md w).2 = .ok v0 w' := hb
  have hv0 := Line2_returns_undefined _ _ _ _ _ _ hb'
  subst hv0
  refine ⟨?_, Line2_ok_cases _ _ _ _ _ _ hb'⟩
  rcases hv with ⟨r, hr, _⟩ | ⟨_, hv⟩
  · cases hr
  · exact hv

/-- What a successful `new Line2( ...args )` establishes when the imported
constructors respect the frame: the result is the fresh receiver, it is tagged,
and no object that existed before has changed. -/
theorem newLine2_tagged (env : Imports) (md : Module) (P : Nat) (args : List Val)
    (w : World) (node : Val) (w' : World) (hI : Installed md P w)
    (hG : env.LineGeometry.body.Framed) (hM : env.LineMaterial.body.Framed)
    (hS : env.LineSegments2.body.Framed) (hK : env.LineSegments2.body.KeepsFlag)
    (h : newLine2 env md args w = .ok node w') :
    node = .obj w.next ∧ Tagged P w.next w' ∧ w.next + 1 ≤ w'.next ∧
      ∀ x, x < w.next → w'.objs x = w.objs x := by
  obtain ⟨hn, g', w1, m', w2, v3, w3, hg, hm, hb, hw⟩ := newLine2_ok_cases _ _ _ _ _ _ h
  have f1 := geometryArg_frame _ _ _ _ _ hG hg
  have f2 := materialArg_frame _ _ _ _ _ hM hm
  rw [receiver_next] at f1
  have n3 := hS.next_le _ _ _ _ _ hb
  have o3 := hS.others _ _ _ _ _ hb
  have k3 := hK _ _ _ _ _ hb
  have hnode2 : w2.objs w.next = { proto := .obj P, props := [] } := by
    rw [f2.2 _ (by omega), f1.2 _ (by omega), receiver_objs_new env md P w hI]
  have hold : ∀ x, x < w.next → w3.objs x = w.objs x := by
    intro x hx
    rw [o3 x (by omega) (by omega), f2.2 _ (by omega), f1.2 _ (by omega),
      receiver_objs_old env md w x (by omega)]
  have hPn : P ≠ w.next := by have := hI.2.1; omega
  subst hw
  refine ⟨hn, ⟨setProp_own_same _ _ _ _, ?_, ?_, ?_, ?_⟩, ?_, fun x hx => ?_⟩
  · rw [setProp_own_other _ _ _ _ _ _ (by decide), k3.2, hnode2]; rfl
  · rw [setProp_proto, k3.1, hnode2]
  · rw [setProp_objs_ne _ _ _ _ _ hPn, hold P hI.2.1]; exact hI.2.2.2
  · rw [setProp_next]; omega
  · rw [setProp_next]; omega
  · rw [setProp_objs_ne _ _ _ _ _ (by omega), hold x hx]

/-! ## The example constructors meet the conditions -/

theorem Example.LineGeometry_framed : Ctor.Framed Example.LineGeometry where
  next_le := by
    intro this args w v w' h
    cases h; exact le_refl _
  others := by
    intro this args w v w' h x _ _
    cases h; rfl

theorem Example.LineGeometry_plain : Ctor.Plain Example.LineGeometry := by
  intro this args w v w' h r
  cases h; simp

theorem Example.LineGeometry_leavesRandom : Ctor.LeavesRandom Example.LineGeometry := by
  intro this args w v w' h
  cases h; rfl

theorem Example.LineMaterial_cases (this : Nat) (args : List Val) (w : World) (v : Val)
    (w' : World) (h : Example.LineMaterial this args w = .ok v w') :
    v = .undefined ∧ (w' = w ∨ ∃ c, w' = w.setProp this "color" c) := by
  simp only [Example.LineMaterial] at h
  split at h
  · cases h; exact ⟨rfl, Or.inr ⟨_, rfl⟩⟩
  · cases h; exact ⟨rfl, Or.inl rfl⟩

theorem Example.LineMaterial_framed : Ctor.Framed Example.LineMaterial where
  next_le := by
    intro this args w v w' h
    obtain ⟨_, rfl | ⟨c, rfl⟩⟩ := Example.LineMaterial_cases _ _ _ _ _ h
    · exact le_refl _
    · exact le_refl _
  others := by
    intro this args w v w' h x _ hx
    obtain ⟨_, rfl | ⟨c, rfl⟩⟩ := Example.LineMaterial_cases _ _ _ _ _ h
    · rfl
    · exact setProp_objs_ne _ _ _ _ _ hx

theorem Example.LineMaterial_plain : Ctor.Plain Example.LineMaterial := by
  intro this args w v w' h r
  rw [(Example.LineMaterial_cases _ _ _ _ _ h).1]
  simp

theorem Example.LineMaterial_leavesRandom : Ctor.LeavesRandom Example.LineMaterial := by
  intro this args w v w' h
  obtain ⟨_, rfl | ⟨c, rfl⟩⟩ := Example.LineMaterial_cases _ _ _ _ _ h
  · rfl
  · rfl

theorem Example.LineSegments2_framed : Ctor.Framed Example.LineSegments2 where
  next_le := by
    intro this args w v w' h
    cases h; exact le_refl _
  others := by
    intro this args w v w' h x _ hx
    cases h
    rw [setProp_objs_ne _ _ _ _ _ hx, setProp_objs_ne _ _ _ _ _ hx,
      setProp_objs_ne _ _ _ _ _ hx]

theorem Example.LineSegments2_keepsFlag : Ctor.KeepsFlag Example.LineSegments2 := by
  intro this args w v w' h
  cases h
  refine ⟨by simp, ?_⟩
  rw [setProp_own_other _ _ _ _ _ _ (by decide), setProp_own_other _ _ _ _ _ _ (by decide),
    setProp_own_other _ _ _ _ _ _ (by decide)]

theorem Example.LineSegments2_leavesRandom : Ctor.LeavesRandom Example.LineSegments2 := by
  intro this args w v w' h
  cases h; rfl

theorem Example.installed : Installed Example.module 7 Example.loaded :=
  ⟨by decide, by decide, by decide, by decide⟩

/-! ## Construction without arguments -/

/-- C1: whenever `new Line2()` returns, the node is the fresh receiver. The
geometry is the object `g` that `new LineGeometry()` returned and the material
the object `m` that `new LineMaterial( ... )` returned on the fresh options
object with the random color; `LineSegments2` was called on the receiver with
exactly `[g, m]`, so neither is `null` or `undefined`; the world returned is the
one the base constructor left, with `type` assigned, and the property `type` of
the node reads `'Line2'`. Its property `isLine2` reads `true`, through
`Line2.prototype`, when the module state is installed and the imported
constructors keep within their frame (they change only their receiver and what
they allocate, and the base constructor does not write `isLine2` on the node or
relink it). -/
theorem newLine2_without_arguments (env : Imports) (md : Module) (w : World)
    (node : Val) (w' : World) (h : newLine2 env md [] w = .ok node w') :
    ∃ g m w1 w2 v3 w3,
      node = .obj w.next ∧
      construct env.objectPrototype env.LineGeometry [] (newLine2.receiver env md w).2 =
        .ok (.obj g) w1 ∧
      ((Line2.materialOptions env w1).2.objs w1.next).own "color" =
        some (.num (Line2.randomColor (w1.rng 0))) ∧
      construct env.objectPrototype env.LineMaterial [.obj w1.next]
        (Line2.materialOptions env w1).2 = .ok (.obj m) w2 ∧
      env.LineSegments2.body w.next [.obj g, .obj m] w2 = .ok v3 w3 ∧
      w' = w3.setProp w.next "type" (.str "Line2") ∧
      w'.get w.next "type" = .str "Line2" ∧
      (∀ P, Installed md P w →
        env.LineGeometry.body.Framed → env.LineMaterial.body.Framed →
        env.LineSegments2.body.Framed → env.LineSegments2.body.KeepsFlag →
        w'.get w.next "isLine2" = .bool true) := by
  obtain ⟨hn, g', w1, m', w2, v3, w3, hg, hm, hb, hw⟩ := newLine2_ok_cases _ _ _ _ _ _ h
  have hg0 : ([] : List Val).getD 0 .undefined = .undefined := rfl
  have hm0 : ([] : List Val).getD 1 .undefined = .undefined := rfl
  rw [hg0, geometryArg_omitted] at hg
  rw [hm0, materialArg_omitted] at hm
  obtain ⟨g, rfl⟩ := construct_ok _ _ _ _ _ _ hg
  obtain ⟨m, rfl⟩ := construct_ok _ _ _ _ _ _ hm
  refine ⟨g, m, w1, w2, v3, w3, hn, hg, materialOptions_color env w1, hm, hb, hw, ?_,
    fun P hI hG hM hS hK => ?_⟩
  · rw [hw]
    exact get_of_own _ _ _ _ (setProp_own_same _ _ _ _)
  · exact (newLine2_tagged env md P [] w node w' hI hG hM hS hK h).2.1.get_isLine2

theorem newLine2_without_arguments_witness :
    (∃ g m w1 w2 v3 w3,
      Val.obj 9 = .obj Example.loaded.next ∧
      construct Example.imports.objectPrototype Example.imports.LineGeometry []
        (newLine2.receiver Example.imports Example.module Example.loaded).2 =
        .ok (.obj g) w1 ∧
      ((Line2.materialOptions Example.imports w1).2.objs w1.next).own "color" =
        some (.num (Line2.randomColor (w1.rng 0))) ∧
      construct Example.imports.objectPrototype Example.imports.LineMaterial
        [.obj w1.next] (Line2.materialOptions Example.imports w1).2 = .ok (.obj m) w2 ∧
      Example.imports.LineSegments2.body Example.loaded.next [.obj g, .obj m] w2 =
        .ok v3 w3 ∧
      (newLine2 Example.imports Example.module [] Example.loaded).world =
        w3.setProp Example.loaded.next "type" (.str "Line2") ∧
      (newLine2 Example.imports Example.module [] Example.loaded).world.get
        Example.loaded.next "type" = .str "Line2") ∧
    (newLine2 Example.imports Example.module [] Example.loaded).world.get
      Example.loaded.next "isLine2" = .bool true := by
  obtain ⟨g, m, w1, w2, v3, w3, h1, h2, h3, h4, h5, h6, h7, h8⟩ :=
    newLine2_without_arguments Example.imports Example.module Example.loaded (.obj 9)
      (newLine2 Example.imports Example.module [] Example.loaded).world rfl
  exact ⟨⟨g, m, w1, w2, v3, w3, h1, h2, h3, h4, h5, h6, h7⟩,
    h8 7 Example.installed Example.LineGeometry_framed Example.LineMaterial_framed
      Example.LineSegments2_framed Example.LineSegments2_keepsFlag⟩

/-! ## Two constructions -/

theorem newLine2_defaults (env : Imports) (md : Module) (w : World) (node : Val)
    (w' : World)
    (hG : env.LineGeometry.body.Framed) (hM : env.LineMaterial.body.Framed)
    (hS : env.LineSegments2.body.Framed)
    (hGp : env.LineGeometry.body.Plain) (hMp : env.LineMaterial.body.Plain)
    (h : newLine2 env md [] w = .ok node w') :
    ∃ g m w1 w2,
      construct env.objectPrototype env.LineGeometry [] (newLine2.receiver env md w).2 =
        .ok (.obj g) w1 ∧
      Line2.defaultMaterial env w1 = .ok (.obj m) w2 ∧
      Line2 env w.next [] (newLine2.receiver env md w).2 =
        Line2.finish env w.next (.obj g) (.obj m) w2 ∧
      w.next < g ∧ g < m ∧ m < w'.next := by
  obtain ⟨_, g', w1, m', w2, v3, w3, hg, hm, hb, hw⟩ := newLine2_ok_cases _ _ _ _ _ _ h
  have hg0 : ([] : List Val).getD 0 .undefined = .undefined := rfl
  have hm0 : ([] : List Val).getD 1 .undefined = .undefined := rfl
  rw [hg0, geometryArg_omitted] at hg
  rw [hm0, materialArg_omitted] at hm
  have hgv := construct_plain _ _ _ _ _ _ hGp hg
  have hgf := construct_frame _ _ _ _ _ _ hG hg
  have hmv := construct_plain _ _ _ _ _ _ hMp hm
  have hmf := construct_frame _ _ _ _ _ _ hM hm
  rw [receiver_next] at hgv hgf
  rw [materialOptions_next] at hmv hmf
  have n3 := hS.next_le _ _ _ _ _ hb
  subst hgv hmv hw
  refine ⟨_, _, w1, w2, hg, hm, ?_, by omega, by omega, by rw [setProp_next]; omega⟩
  simp only [Line2, hg0, hm0, geometryArg_omitted, materialArg_omitted, hg, hm]

theorem Installed.after (env : Imports) (md : Module) (P : Nat) (args : List Val)
    (w : World) (node : Val) (w' : World) (hI : Installed md P w)
    (hG : env.LineGeometry.body.Framed) (hM : env.LineMaterial.body.Framed)
    (hS : env.LineSegments2.body.Framed) (hK : env.LineSegments2.body.KeepsFlag)
    (h : newLine2 env md args w = .ok node w') : Installed md P w' := by
  obtain ⟨_, _, hn, ho⟩ := newLine2_tagged env md P args w node w' hI hG hM hS hK h
  obtain ⟨h1, h2, h3, h4⟩ := hI
  exact ⟨by omega, by omega, by rw [ho _ h1]; exact h3, by rw [ho _ h2]; exact h4⟩

/-- C6: two successive `new Line2()` (the module state installed, the imported
constructors within their frame and returning no object of their own) yield two
distinct nodes; each base call receives a geometry and a material allocated
during its own construction, and the four references are pairwise distinct, so
the defaults of the first node are not those of the second; after both
constructions `isLine2` reads `true` on both nodes. -/
theorem two_constructions_share_no_default (env : Imports) (md : Module) (P : Nat)
    (w w1 w2 : World) (node1 node2 : Val) (hI : Installed md P w)
    (hG : env.LineGeometry.body.Framed) (hM : env.LineMaterial.body.Framed)
    (hS : env.LineSegments2.body.Framed) (hK : env.LineSegments2.body.KeepsFlag)
    (hGp : env.LineGeometry.body.Plain) (hMp : env.LineMaterial.body.Plain)
    (h1 : newLine2 env md [] w = .ok node1 w1)
    (h2 : newLine2 env md [] w1 = .ok node2 w2) :
    ∃ n1 g1 m1 n2 g2 m2 wa wb wc wd,
      node1 = .obj n1 ∧ node2 = .obj n2 ∧ n1 ≠ n2 ∧
      construct env.objectPrototype env.LineGeometry [] (newLine2.receiver env md w).2 =
        .ok (.obj g1) wa ∧
      Line2.defaultMaterial env wa = .ok (.obj m1) wb ∧
      Line2 env n1 [] (newLine2.receiver env md w).2 =
        Line2.finish env n1 (.obj g1) (.obj m1) wb ∧
      construct env.objectPrototype env.LineGeometry [] (newLine2.receiver env md w1).2 =
        .ok (.obj g2) wc ∧
      Line2.defaultMaterial env wc = .ok (.obj m2) wd ∧
      Line2 env n2 [] (newLine2.receiver env md w1).2 =
        Line2.finish env n2 (.obj g2) (.obj m2) wd ∧
      g1 ≠ g2 ∧ m1 ≠ m2 ∧ g1 ≠ m2 ∧ m1 ≠ g2 ∧
      w1.get n1 "isLine2" = .bool true ∧
      w2.get n1 "isLine2" = .bool true ∧ w2.get n2 "isLine2" = .bool true := by
  obtain ⟨hn1, hT1, hlt1, _⟩ := newLine2_tagged env md P [] w node1 w1 hI hG hM hS hK h1
  have hI1 := Installed.after env md P [] w node1 w1 hI hG hM hS hK h1
  obtain ⟨hn2, hT2, hlt2, ho2⟩ := newLine2_tagged env md P [] w1 node2 w2 hI1 hG hM hS hK h2
  obtain ⟨g1, m1, wa, wb, ha, hb, hc, l1, l2, l3⟩ :=
    newLine2_defaults env md w node1 w1 hG hM hS hGp hMp h1
  obtain ⟨g2, m2, wc, wd, ha', hb', hc', l1', l2', l3'⟩ :=
    newLine2_defaults env md w1 node2 w2 hG hM hS hGp hMp h2
  have hT12 : Tagged P w.next w2 := by
    obtain ⟨t1, t2, t3, t4, _⟩ := hT1
    refine ⟨?_, ?_, ?_, hT2.2.2.2.1, hT2.2.2.2.2⟩
    · rw [ho2 _ (by omega)]; exact t1
    · rw [ho2 _ (by omega)]; exact t2
    · rw [ho2 _ (by omega)]; exact t3
  exact ⟨w.next, g1, m1, w1.next, g2, m2, wa, wb, wc, wd, hn1, hn2, by omega, ha, hb, hc,
    ha', hb', hc', by omega, by omega, by omega, by omega, hT1.get_isLine2,
    hT12.get_isLine2, hT2.get_isLine2⟩

theorem two_constructions_share_no_default_witness :
    ∃ n1 g1 m1 n2 g2 m2 wa wb wc wd,
      Val.obj 9 = .obj n1 ∧ Val.obj 13 = .obj n2 ∧ n1 ≠ n2 ∧
      construct Example.imports.objectPrototype Example.imports.LineGeometry []
        (newLine2.receiver Example.imports Example.module Example.loaded).2 =
        .ok (.obj g1) wa ∧
      Line2.defaultMaterial Example.imports wa = .ok (.obj m1) wb ∧
      Line2 Example.imports n1 []
        (newLine2.receiver Example.imports Example.module Example.loaded).2 =
        Line2.finish Example.imports n1 (.obj g1) (.obj m1) wb ∧
      construct Example.imports.objectPrototype Example.imports.LineGeometry []
        (newLine2.receiver Example.imports Example.module
          (newLine2 Example.imports Example.module [] Example.loaded).world).2 =
        .ok (.obj g2) wc ∧
      Line2.defaultMaterial Example.imports wc = .ok (.obj m2) wd ∧
      Line2 Example.imports n2 []
        (newLine2.receiver Example.imports Example.module
          (newLine2 Example.imports Example.module [] Example.loaded).world).2 =
        Line2.finish Example.imports n2 (.obj g2) (.obj m2) wd ∧
      g1 ≠ g2 ∧ m1 ≠ m2 ∧ g1 ≠ m2 ∧ m1 ≠ g2 ∧
      (newLine2 Example.imports Example.module [] Example.loaded).world.get n1 "isLine2" =
        .bool true ∧
      (newLine2 Example.imports Example.module []
        (newLine2 Example.imports Example.module [] Example.loaded).world).world.get n1
          "isLine2" = .bool true ∧
      (newLine2 Example.imports Example.module []
        (newLine2 Example.imports Example.module [] Example.loaded).world).world.get n2
          "isLine2" = .bool true :=
  two_constructions_share_no_default Example.imports Example.module 7 Example.loaded
    (newLine2 Example.imports Example.module [] Example.loaded).world
    (newLine2 Example.imports Example.module []
      (newLine2 Example.imports Example.module [] Example.loaded).world).world
    (.obj 9) (.obj 13) Example.installed
    Example.LineGeometry_framed Example.LineMaterial_framed Example.LineSegments2_framed
    Example.LineSegments2_keepsFlag Example.LineGeometry_plain Example.LineMaterial_plain
    rfl rfl

/-! ## Mutations after construction -/

theorem Tagged.setProp_other {P n : Nat} {w : World} (h : Tagged P n w) (t : Nat)
    (k : String) (v : Val) (htn : t ≠ n) (htP : t ≠ P) : Tagged P n (w.setProp t k v) := by
  obtain ⟨h1, h2, h3, h4, h5⟩ := h
  refine ⟨?_, ?_, ?_, ?_, h5⟩
  · rw [setProp_objs_ne _ _ _ _ _ (Ne.symm htn)]; exact h1
  · rw [setProp_objs_ne _ _ _ _ _ (Ne.symm htn)]; exact h2
  · rw [setProp_proto]; exact h3
  · rw [setProp_objs_ne _ _ _ _ _ (Ne.symm htP)]; exact h4

theorem Tagged.ne {P n : Nat} {w : World} (h : Tagged P n w) : P ≠ n := by
  intro e
  have h2 := h.2.1
  have h4 := h.2.2.2.1
  rw [e, h2] at h4
  cases h4

theorem Tagged.setProp_node {P n : Nat} {w : World} (h : Tagged P n w) (k : String)
    (v : Val) (hk1 : "type" ≠ k) (hk2 : "isLine2" ≠ k) : Tagged P n (w.setProp n k v) := by
  have hne := h.ne
  obtain ⟨h1, h2, h3, h4, h5⟩ := h
  refine ⟨?_, ?_, ?_, ?_, h5⟩
  · rw [setProp_own_other _ _ _ _ _ _ hk1]; exact h1
  · rw [setProp_own_other _ _ _ _ _ _ hk2]; exact h2
  · rw [setProp_proto]; exact h3
  · rw [setProp_objs_ne _ _ _ _ _ hne]; exact h4

theorem Tagged.setProp_proto_other {P n : Nat} {w : World} (h : Tagged P n w) (k : String)
    (v : Val) (hk : "isLine2" ≠ k) : Tagged P n (w.setProp P k v) := by
  have hne := h.ne
  obtain ⟨h1, h2, h3, h4, h5⟩ := h
  refine ⟨?_, ?_, ?_, ?_, h5⟩
  · rw [setProp_objs_ne _ _ _ _ _ (Ne.symm hne)]; exact h1
  · rw [setProp_objs_ne _ _ _ _ _ (Ne.symm hne)]; exact h2
  · rw [setProp_proto]; exact h3
  · rw [setProp_own_other _ _ _ _ _ _ hk]; exact h4

theorem setProto_objs_ne (w : World) (t x : Nat) (v : Val) (h : x ≠ t) :
    (w.setProto t v).objs x = w.objs x := by
  simp [World.setProto, Function.update, h]

theorem setProto_own (w : World) (t x : Nat) (v : Val) (k : String) :
    ((w.setProto t v).objs x).own k = (w.objs x).own k := by
  by_cases h : x = t
  · subst h; simp [World.setProto, Function.update, Obj.own]
  · rw [setProto_objs_ne w t x v h]

theorem Tagged.setProto {P n : Nat} {w : World} (h : Tagged P n w) (t : Nat) (v : Val)
    (htn : t ≠ n) : Tagged P n (w.setProto t v) := by
  obtain ⟨h1, h2, h3, h4, h5⟩ := h
  refine ⟨?_, ?_, ?_, ?_, h5⟩
  · rw [setProto_own]; exact h1
  · rw [setProto_own]; exact h2
  · rw [setProto_objs_ne _ _ _ _ (Ne.symm htn)]; exact h3
  · rw [setProto_own]; exact h4

theorem Tagged.protoSetter {P n : Nat} {w : World} (h : Tagged P n w) (op : Val) (t : Nat)
    (v : Val) (htn : t ≠ n) : Tagged P n (w.protoSetter op t v) := by
  simp only [World.protoSetter]
  split
  · exact h
  · split
    · split
      · exact h
      · exact h.setProto t _ htn
    · exact h.setProto t _ htn
    · exact h

theorem Tagged.write {P n : Nat} {w : World} (h : Tagged P n w) (op target : Val)
    (k : String) (v : Val)
    (h1 : target = .obj n → k ≠ "type" ∧ k ≠ "isLine2" ∧ k ≠ "__proto__")
    (h2 : target = .obj P → k ≠ "isLine2") : Tagged P n (w.write op target k v) := by
  cases target with
  | obj t =>
    simp only [World.write]
    split
    · next hc =>
      refine h.protoSetter op t v (fun htn => ?_)
      subst htn
      exact (h1 rfl).2.2 hc.1
    · by_cases htn : t = n
      · subst htn
        exact h.setProp_node k v (Ne.symm (h1 rfl).1) (Ne.symm (h1 rfl).2.1)
      · by_cases htP : t = P
        · subst htP
          exact h.setProp_proto_other k v (Ne.symm (h2 rfl))
        · exact h.setProp_other t k v htn htP
  | undefined => exact h
  | null => exact h
  | bool b => exact h
  | num x => exact h
  | str x => exact h

theorem Tagged.apply {P n : Nat} {w : World} (h : Tagged P n w) (op : Val) (m : Mutation)
    (hs : m.SparesTag n P w) : Tagged P n (m.apply op n w) := by
  cases m with
  | replaceGeometry v => exact h.setProp_node "geometry" v (by decide) (by decide)
  | replaceMaterial v => exact h.setProp_node "material" v (by decide) (by decide)
  | writeGeometry k v => exact h.write op _ k v hs.1 hs.2
  | writeMaterial k v => exact h.write op _ k v hs.1 hs.2

theorem Tagged.mutate {P n : Nat} (op : Val) (ms : List Mutation) :
    ∀ {w : World}, Tagged P n w → SpareTag op n P ms w → Tagged P n (mutate op n ms w) := by
  induction ms with
  | nil => intro w h _; exact h
  | cons m ms ih => intro w h hs; exact ih (h.apply op m hs.1) hs.2

/-- C7, as stated, fails: in the example world, after `new Line2()` has returned
node 9, each of these mutations of the material or the geometry of the node
changes the tag or the flag. `node.material = node; node.material.type = 'X'`
leaves `type` reading `'X'`; `node.geometry = Line2.prototype;
node.geometry.isLine2 = false` leaves `isLine2` reading `false`; and
`node.geometry = node; node.geometry.__proto__ = null` leaves `isLine2`
reading `undefined`. -/
theorem tag_and_flag_lost_through_alias :
    (newLine2 Example.imports Example.module [] Example.loaded).value? = some (.obj 9) ∧
    (mutate Example.imports.objectPrototype 9
      [.replaceMaterial (.obj 9), .writeMaterial "type" (.str "X")]
      (newLine2 Example.imports Example.module [] Example.loaded).world).get 9 "type" =
        .str "X" ∧
    (mutate Example.imports.objectPrototype 9
      [.replaceGeometry (.obj 7), .writeGeometry "isLine2" (.bool false)]
      (newLine2 Example.imports Example.module [] Example.loaded).world).get 9 "isLine2" =
        .bool false ∧
    (mutate Example.imports.objectPrototype 9
      [.replaceGeometry (.obj 9), .writeGeometry "__proto__" .null]
      (newLine2 Example.imports Example.module [] Example.loaded).world).get 9 "isLine2" =
        .undefined :=
  ⟨by decide, by decide, by decide, by decide⟩

/-- C7, amended: after a successful `new Line2( ...args )` (the module state
installed, the imported constructors within their frame), let the caller mutate
the geometry and the material of the node any number of times, replacing the
reference the node holds or changing the contents of the object it refers to.
As long as no such write is, through an alias, an assignment to `type`,
`isLine2` or `__proto__` of the node itself or to `isLine2` of
`Line2.prototype`, `type` still reads `'Line2'` and `isLine2` still reads
`true` on the node. -/
theorem tag_and_flag_survive_mutations (env : Imports) (md : Module) (P : Nat)
    (args : List Val) (w : World) (node : Val) (w' : World) (hI : Installed md P w)
    (hG : env.LineGeometry.body.Framed) (hM : env.LineMaterial.body.Framed)
    (hS : env.LineSegments2.body.Framed) (hK : env.LineSegments2.body.KeepsFlag)
    (h : newLine2 env md args w = .ok node w')
    (ms : List Mutation) (hs : SpareTag env.objectPrototype w.next P ms w') :
    node = .obj w.next ∧
    (mutate env.objectPrototype w.next ms w').get w.next "type" = .str "Line2" ∧
    (mutate env.objectPrototype w.next ms w').get w.next "isLine2" = .bool true := by
  obtain ⟨hn, hT, _, _⟩ := newLine2_tagged env md P args w node w' hI hG hM hS hK h
  have hT' := hT.mutate env.objectPrototype ms hs
  exact ⟨hn, hT'.get_type, hT'.get_isLine2⟩

theorem tag_and_flag_survive_mutations_witness :
    Val.obj 9 = .obj Example.loaded.next ∧
    (mutate Example.imports.objectPrototype Example.loaded.next
      [.writeGeometry "maxInstancedCount" (.num (Number.ofNat 4)),
       .writeMaterial "type" (.str "Other"), .replaceGeometry (.obj 3),
       .writeGeometry "isLine2" (.bool false), .replaceMaterial .null,
       .writeMaterial "linewidth" (.num (Number.ofNat 5)), .replaceMaterial (.obj 9),
       .writeMaterial "visible" (.bool false), .replaceGeometry (.obj 7),
       .writeGeometry "constructor" .null, .writeGeometry "__proto__" .null]
      (newLine2 Example.imports Example.module [] Example.loaded).world).get
        Example.loaded.next "type" = .str "Line2" ∧
    (mutate Example.imports.objectPrototype Example.loaded.next
      [.writeGeometry "maxInstancedCount" (.num (Number.ofNat 4)),
       .writeMaterial "type" (.str "Other"), .replaceGeometry (.obj 3),
       .writeGeometry "isLine2" (.bool false), .replaceMaterial .null,
       .writeMaterial "linewidth" (.num (Number.ofNat 5)), .replaceMaterial (.obj 9),
       .writeMaterial "visible" (.bool false), .replaceGeometry (.obj 7),
       .writeGeometry "constructor" .null, .writeGeometry "__proto__" .null]
      (newLine2 Example.imports Example.module [] Example.loaded).world).get
        Example.loaded.next "isLine2" = .bool true :=
  tag_and_flag_survive_mutations Example.imports Example.module 7 [] Example.loaded
    (.obj 9) (newLine2 Example.imports Example.module [] Example.loaded).world
    Example.installed Example.LineGeometry_framed Example.LineMaterial_framed
    Example.LineSegments2_framed Example.LineSegments2_keepsFlag rfl
    [.writeGeometry "maxInstancedCount" (.num (Number.ofNat 4)),
     .writeMaterial "type" (.str "Other"), .replaceGeometry (.obj 3),
     .writeGeometry "isLine2" (.bool false), .replaceMaterial .null,
     .writeMaterial "linewidth" (.num (Number.ofNat 5)), .replaceMaterial (.obj 9),
     .writeMaterial "visible" (.bool false), .replaceGeometry (.obj 7),
     .writeGeometry "constructor" .null, .writeGeometry "__proto__" .null]
    (by decide)

/-! ## Effects of a construction on the rest of the world -/

/-- C8, as stated, fails: in the example world `new Line2()` returns node 9 and
leaves the random source in another state than it found it. Before, the next
value of `Math.random()` is `0 / 2^53`; after, it is `1 / 2^53`. -/
theorem newLine2_advances_random_source :
    (newLine2 Example.imports Example.module [] Example.loaded).value? = some (.obj 9) ∧
    Example.loaded.rng 0 = .fin false 0 (-53) ∧
    (newLine2 Example.imports Example.module [] Example.loaded).world.rng 0 =
      .fin false 1 (-53) ∧
    (newLine2 Example.imports Example.module [] Example.loaded).world.rng ≠
      Example.loaded.rng :=
  ⟨by decide, by decide, by decide, fun h => absurd (congrFun h 0) (by decide)⟩

theorem materialArg_rng (env : Imports) (m : Val) (w : World) (v : Val) (w' : World)
    (hR : env.LineMaterial.body.LeavesRandom) (h : Line2.materialArg env m w = .ok v w') :
    (m ≠ .undefined → w'.rng = w.rng) ∧
    (m = .undefined → w'.rng = fun n => w.rng (n + 1)) := by
  constructor
  · intro hm
    rw [materialArg_supplied env m w hm] at h
    cases h; rfl
  · intro hm
    subst hm
    rw [materialArg_omitted] at h
    rw [construct_rng _ _ _ _ _ _ hR h, materialOptions_rng]

theorem geometryArg_rng (env : Imports) (g : Val) (w : World) (v : Val) (w' : World)
    (hR : env.LineGeometry.body.LeavesRandom) (h : Line2.geometryArg env g w = .ok v w') :
    w'.rng = w.rng := by
  by_cases hg : g = .undefined
  · subst hg
    rw [geometryArg_omitted] at h
    exact construct_rng _ _ _ _ _ _ hR h
  · rw [geometryArg_supplied env g w hg] at h
    cases h; rfl

/-- C8, amended: a successful `new Line2( geometry, material )` whose imported
constructors change only their receiver and what they allocate, and do not use
the random source, changes no object that existed before it; it leaves the
random source as it found it when a material is supplied, and advanced by
exactly one value when the material is omitted. -/
theorem newLine2_effects (env : Imports) (md : Module) (args : List Val) (w : World)
    (node : Val) (w' : World)
    (hG : env.LineGeometry.body.Framed) (hM : env.LineMaterial.body.Framed)
    (hS : env.LineSegments2.body.Framed)
    (hGr : env.LineGeometry.body.LeavesRandom) (hMr : env.LineMaterial.body.LeavesRandom)
    (hSr : env.LineSegments2.body.LeavesRandom)
    (h : newLine2 env md args w = .ok node w') :
    (∀ x, x < w.next → w'.objs x = w.objs x) ∧
    (args.getD 1 .undefined ≠ .undefined → w'.rng = w.rng) ∧
    (args.getD 1 .undefined = .undefined → w'.rng = fun n => w.rng (n + 1)) := by
  obtain ⟨_, g', w1, m', w2, v3, w3, hg, hm, hb, hw⟩ := newLine2_ok_cases _ _ _ _ _ _ h
  have f1 := geometryArg_frame _ _ _ _ _ hG hg
  have f2 := materialArg_frame _ _ _ _ _ hM hm
  rw [receiver_next] at f1
  have o3 := hS.others _ _ _ _ _ hb
  have r1 := geometryArg_rng _ _ _ _ _ hGr hg
  have r2 := materialArg_rng _ _ _ _ _ hMr hm
  have r3 := hSr _ _ _ _ _ hb
  rw [receiver_rng] at r1
  subst hw
  refine ⟨fun x hx => ?_, fun hm' => ?_, fun hm' => ?_⟩
  · rw [setProp_objs_ne _ _ _ _ _ (by omega), o3 x (by omega) (by omega),
      f2.2 _ (by omega), f1.2 _ (by omega), receiver_objs_old env md w x (by omega)]
  · rw [setProp_rng, r3, r2.1 hm', r1]
  · rw [setProp_rng, r3, r2.2 hm', r1]

theorem newLine2_effects_witness :
    (∀ x, x < Example.loaded.next →
      (newLine2 Example.imports Example.module [.obj 3] Example.loaded).world.objs x =
        Example.loaded.objs x) ∧
    ([Val.obj 3].getD 1 .undefined ≠ .undefined →
      (newLine2 Example.imports Example.module [.obj 3] Example.loaded).world.rng =
        Example.loaded.rng) ∧
    ([Val.obj 3].getD 1 .undefined = .undefined →
      (newLine2 Example.imports Example.module [.obj 3] Example.loaded).world.rng =
        fun n => Example.loaded.rng (n + 1)) :=
  newLine2_effects Example.imports Example.module [.obj 3] Example.loaded (.obj 9)
    (newLine2 Example.imports Example.module [.obj 3] Example.loaded).world
    Example.LineGeometry_framed Example.LineMaterial_framed Example.LineSegments2_framed
    Example.LineGeometry_leavesRandom Example.LineMaterial_leavesRandom
    Example.LineSegments2_leavesRandom rfl

/-! ## Rounding -/

theorem bitLengthAux_le_iff : ∀ fuel n, n ≤ fuel → ∀ k, bitLengthAux fuel n ≤ k ↔ n < 2 ^ k := by
  intro fuel
  induction fuel with
  | zero =>
    intro n hn k
    have h0 : n = 0 := by omega
    subst h0
    simp [bitLengthAux]
  | succ f ih =>
    intro n hn k
    unfold bitLengthAux
    split
    · next h => subst h; simp
    · next h =>
      cases k with
      | zero => simp; omega
      | succ k =>
        have := ih (n / 2) (by omega) k
        simp only [Nat.add_le_add_iff_right, this]
        rw [Nat.pow_succ]; omega

theorem bitLength_le_iff (n k : Nat) : bitLength n ≤ k ↔ n < 2 ^ k :=
  bitLengthAux_le_iff n n (le_refl n) k

theorem bitLength_eq (n k : Nat) (h1 : 2 ^ k ≤ n) (h2 : n < 2 ^ (k + 1)) :
    bitLength n = k + 1 := by
  have a := (bitLength_le_iff n (k + 1)).2 h2
  have b : ¬ bitLength n ≤ k := fun h => by
    have := (bitLength_le_iff n k).1 h
    omega
  omega

theorem roundNearestEven_le (P N s : Nat) (h : P ≤ N * 2 ^ s) : roundNearestEven P s ≤ N := by
  have hT : 0 < 2 ^ s := Nat.two_pow_pos s
  have hq : P / 2 ^ s ≤ N := Nat.div_le_of_le_mul (by rw [Nat.mul_comm]; exact h)
  have hd := Nat.div_add_mod P (2 ^ s)
  simp only [roundNearestEven]
  split
  · exact hq
  · next h1 =>
    have hlt : P / 2 ^ s < N := by
      rcases Nat.lt_or_ge (P / 2 ^ s) N with h' | h'
      · exact h'
      · exfalso
        have e : P / 2 ^ s = N := le_antisymm hq h'
        rw [e, Nat.mul_comm] at hd
        have : P % 2 ^ s = 0 := by omega
        omega
    split
    · omega
    · split <;> omega

theorem roundNearestEven_two_mul_le (P s : Nat) :
    2 * (roundNearestEven P s * 2 ^ s) ≤ 2 * P + 2 ^ s := by
  have hd := Nat.div_add_mod P (2 ^ s)
  have hm : P / 2 ^ s * 2 ^ s = 2 ^ s * (P / 2 ^ s) := Nat.mul_comm _ _
  simp only [roundNearestEven]
  split
  · omega
  · next h1 =>
    have hle : roundNearestEven P s ≤ P / 2 ^ s + 1 := by
      simp only [roundNearestEven]
      split
      · omega
      · split
        · omega
        · split <;> omega
    have : (P / 2 ^ s + 1) * 2 ^ s = 2 ^ s * (P / 2 ^ s) + 2 ^ s := by ring
    split
    · omega
    · split <;> omega

theorem roundNearestEven_eq (P Q s : Nat) (h1 : 2 * (Q * 2 ^ s) < 2 * P + 2 ^ s)
    (h2 : 2 * P < 2 * (Q * 2 ^ s) + 2 ^ s) : roundNearestEven P s = Q := by
  have hT : 0 < 2 ^ s := Nat.two_pow_pos s
  have hd := Nat.div_add_mod P (2 ^ s)
  have hr := Nat.mod_lt P hT
  have hle : P / 2 ^ s ≤ Q := by
    by_contra hc
    have : (Q + 1) * 2 ^ s ≤ P / 2 ^ s * 2 ^ s := Nat.mul_le_mul_right _ (by omega)
    have e1 : (Q + 1) * 2 ^ s = Q * 2 ^ s + 2 ^ s := by ring
    have e2 : P / 2 ^ s * 2 ^ s = 2 ^ s * (P / 2 ^ s) := Nat.mul_comm _ _
    omega
  have hge : Q ≤ P / 2 ^ s + 1 := by
    by_contra hc
    have : (P / 2 ^ s + 2) * 2 ^ s ≤ Q * 2 ^ s := Nat.mul_le_mul_right _ (by omega)
    have e1 : (P / 2 ^ s + 2) * 2 ^ s = 2 ^ s * (P / 2 ^ s) + 2 * 2 ^ s := by ring
    omega
  rcases Nat.lt_or_ge (P / 2 ^ s) Q with hlt | hgeq
  · have e : Q = P / 2 ^ s + 1 := by omega
    have e1 : Q * 2 ^ s = 2 ^ s * (P / 2 ^ s) + 2 ^ s := by rw [e]; ring
    simp only [roundNearestEven]
    split
    · omega
    · split
      · omega
      · omega
  · have e : P / 2 ^ s = Q := by omega
    have e1 : Q * 2 ^ s = 2 ^ s * (P / 2 ^ s) := by rw [e]; ring
    simp only [roundNearestEven]
    split
    · exact e
    · omega

theorem roundNearestEven_zero (s : Nat) : roundNearestEven 0 s = 0 := by
  have hT : 0 < 2 ^ s := Nat.two_pow_pos s
  simp [roundNearestEven, hT]

theorem round_zero (neg : Bool) (e : Int) :
    Number.round neg 0 e = .fin neg 0 (e + roundShift 0 e) := by
  simp [Number.round, roundNearestEven_zero]

/-- Rounding does not step over a bound `N * 2^E / 2^E` whose significand `N`
fits 53 bits: the result is finite and at most the bound. -/
theorem round_le (neg : Bool) (P E N : Nat) (hP : P ≤ N * 2 ^ E) (hN : N < 2 ^ 53) :
    ∃ q s, s ≤ E ∧ Number.round neg P (-(E : ℤ)) = .fin neg q (-(E : ℤ) + s) ∧
      q * 2 ^ s ≤ N * 2 ^ E := by
  have hPlt : P < 2 ^ (53 + E) := by
    rw [Nat.pow_add]
    exact lt_of_le_of_lt hP (Nat.mul_lt_mul_of_pos_right hN (Nat.two_pow_pos E))
  have hbl : bitLength P ≤ 53 + E := (bitLength_le_iff _ _).2 hPlt
  have hs : roundShift P (-(E : ℤ)) ≤ E := by
    simp only [roundShift]
    omega
  have hsplit : N * 2 ^ E = N * 2 ^ (E - roundShift P (-(E : ℤ))) * 2 ^ roundShift P (-(E : ℤ)) := by
    rw [Nat.mul_assoc, ← Nat.pow_add, Nat.sub_add_cancel hs]
  have hq : roundNearestEven P (roundShift P (-(E : ℤ))) ≤
      N * 2 ^ (E - roundShift P (-(E : ℤ))) :=
    roundNearestEven_le _ _ _ (by rw [← hsplit]; exact hP)
  have hqlt : roundNearestEven P (roundShift P (-(E : ℤ))) <
      2 ^ (53 + (E - roundShift P (-(E : ℤ)))) := by
    rw [Nat.pow_add]
    exact lt_of_le_of_lt hq (Nat.mul_lt_mul_of_pos_right hN (Nat.two_pow_pos _))
  have hblq := (bitLength_le_iff _ _).2 hqlt
  refine ⟨roundNearestEven P (roundShift P (-(E : ℤ))), roundShift P (-(E : ℤ)), hs, ?_, ?_⟩
  · simp only [Number.round]
    rw [if_neg]
    rintro ⟨_, h⟩
    omega
  · rw [hsplit]
    exact Nat.mul_le_mul_right _ hq

theorem InUnitInterval_cases (r : Number) (h : r.InUnitInterval) :
    ∃ neg m e, r = .fin neg m e ∧
      (m = 0 ∨ (neg = false ∧ ∃ E : Nat, e = -(E : ℤ) ∧ m < 2 ^ E)) := by
  obtain ⟨q, hq, h0, h1⟩ := h
  cases r with
  | inf a => cases hq
  | nan => cases hq
  | fin neg m e =>
    refine ⟨neg, m, e, rfl, ?_⟩
    simp only [Number.toRat?, Option.some.injEq] at hq
    by_cases hm : m = 0
    · exact Or.inl hm
    · right
      have hmpos : (0 : ℚ) < m := by exact_mod_cast Nat.pos_of_ne_zero hm
      have hpow : (0 : ℚ) < (2 : ℚ) ^ e := zpow_pos (by norm_num) e
      have hneg : neg = false := by
        cases neg with
        | false => rfl
        | true =>
          exfalso
          have : q < 0 := by
            rw [← hq]
            simp only [if_true]
            nlinarith [mul_pos hmpos hpow]
          linarith
      subst hneg
      simp only [Bool.false_eq_true, if_false, one_mul] at hq
      have he : e < 0 := by
        by_contra hc
        have h2 : (1 : ℚ) ≤ (2 : ℚ) ^ e := one_le_zpow₀ (by norm_num) (by omega)
        have h3 : (1 : ℚ) ≤ m := by exact_mod_cast Nat.pos_of_ne_zero hm
        have : (1 : ℚ) ≤ q := by
          rw [← hq]
          nlinarith
        linarith
      refine ⟨rfl, (-e).toNat, by omega, ?_⟩
      have hE : e = -(((-e).toNat : ℕ) : ℤ) := by omega
      rw [hE, zpow_neg, zpow_natCast] at hq
      have hpE : (0 : ℚ) < (2 : ℚ) ^ (-e).toNat := by positivity
      have : (m : ℚ) < (2 : ℚ) ^ (-e).toNat := by
        have h4 : (m : ℚ) * ((2 : ℚ) ^ (-e).toNat)⁻¹ < 1 := by rw [hq]; exact h1
        rwa [← div_eq_mul_inv, div_lt_one hpE] at h4
      exact_mod_cast this

theorem zpow_shift (E s : Nat) :
    (2 : ℚ) ^ (-(E : ℤ) + s) = (2 : ℚ) ^ s / (2 : ℚ) ^ E := by
  rw [zpow_add₀ (by norm_num), zpow_neg, zpow_natCast, zpow_natCast]
  ring

theorem randomColor_fin (neg : Bool) (m : Nat) (e : Int) :
    Line2.randomColor (.fin neg m e) = Number.round neg (m * 16777215) e := by
  simp [Line2.randomColor, Number.mul, Number.ofNat]

theorem randomColor_in_range (r : Number) (h : r.InUnitInterval) :
    ∃ c, (Line2.randomColor r).toRat? = some c ∧ 0 ≤ c ∧ c ≤ 16777215 := by
  obtain ⟨neg, m, e, rfl, hm | ⟨hneg, E, he, hlt⟩⟩ := InUnitInterval_cases r h
  · subst hm
    rw [randomColor_fin, Nat.zero_mul, round_zero]
    exact ⟨_, rfl, by simp, by simp⟩
  · subst hneg he
    rw [randomColor_fin]
    obtain ⟨q, s, hs, hr, hq⟩ := round_le false (m * 16777215) E 16777215
      (by rw [Nat.mul_comm]; exact Nat.mul_le_mul_left _ (le_of_lt hlt)) (by norm_num)
    rw [hr]
    refine ⟨_, rfl, ?_, ?_⟩
    · simp only [Bool.false_eq_true, if_false, one_mul]
      positivity
    · simp only [Bool.false_eq_true, if_false, one_mul]
      rw [zpow_shift, ← mul_div_assoc, div_le_iff₀ (by positivity)]
      exact_mod_cast hq

/-- C4: when the material is omitted, `Line2` constructs the default material
from a fresh options object whose `color` is `Math.random() * 0xffffff`; for
every value `r` with `0 ≤ r < 1` drawn from the random source, that color is a
finite number `c` with `0 ≤ c ≤ 16777215`. -/
theorem default_color_in_range (env : Imports) (w : World) (h : (w.rng 0).InUnitInterval) :
    Line2.materialArg env .undefined w =
      construct env.objectPrototype env.LineMaterial [.obj w.next]
        (Line2.materialOptions env w).2 ∧
    ((Line2.materialOptions env w).2.objs w.next).own "color" =
      some (.num (Line2.randomColor (w.rng 0))) ∧
    ∃ c, (Line2.randomColor (w.rng 0)).toRat? = some c ∧ 0 ≤ c ∧ c ≤ 16777215 :=
  ⟨by rw [materialArg_omitted]; rfl, materialOptions_color env w,
    randomColor_in_range _ h⟩

theorem default_color_in_range_witness :
    Line2.materialArg Example.imports .undefined
        { Example.loaded with rng := fun _ => .fin false 9007199254740991 (-53) } =
      construct Example.imports.objectPrototype Example.imports.LineMaterial
        [.obj Example.loaded.next]
        (Line2.materialOptions Example.imports
          { Example.loaded with rng := fun _ => .fin false 9007199254740991 (-53) }).2 ∧
    ((Line2.materialOptions Example.imports
        { Example.loaded with rng := fun _ => .fin false 9007199254740991 (-53) }).2.objs
        Example.loaded.next).own "color" =
      some (.num (Line2.randomColor (.fin false 9007199254740991 (-53)))) ∧
    ∃ c, (Line2.randomColor (.fin false 9007199254740991 (-53))).toRat? = some c ∧
      0 ≤ c ∧ c ≤ 16777215 :=
  default_color_in_range Example.imports
    { Example.loaded with rng := fun _ => .fin false 9007199254740991 (-53) }
    ⟨(9007199254740991 : ℚ) * (2 : ℚ) ^ (-53 : ℤ), by simp [Number.toRat?],
      by positivity, by norm_num⟩

/-- C5, as stated, fails at `c = 16777215`: no binary64 `r` with `0 ≤ r < 1`
makes `r * 0xffffff` equal to `16777215`. -/
theorem randomColor_never_0xffffff :
    ¬ ∃ r : Number, r.IsDouble ∧ r.InUnitInterval ∧
      (Line2.randomColor r).toRat? = some 16777215 := by
  rintro ⟨r, hd, hu, hc⟩
  obtain ⟨neg, m, e, rfl, hm | ⟨hneg, E, he, hlt⟩⟩ := InUnitInterval_cases r hu
  · subst hm
    rw [randomColor_fin, Nat.zero_mul, round_zero] at hc
    simp [Number.toRat?] at hc
  · subst hneg he
    obtain ⟨hm53, hE, _⟩ := hd
    rw [randomColor_fin] at hc
    have hP : m * 16777215 < 2 ^ 77 := by omega
    have hbl := (bitLength_le_iff _ _).2 hP
    have hs : roundShift (m * 16777215) (-(E : ℤ)) ≤ 24 := by
      simp only [roundShift]
      omega
    have hT : 2 ^ roundShift (m * 16777215) (-(E : ℤ)) ≤ 2 ^ 24 :=
      Nat.pow_le_pow_right (by decide) hs
    have h2 := roundNearestEven_two_mul_le (m * 16777215)
      (roundShift (m * 16777215) (-(E : ℤ)))
    simp only [Number.round] at hc
    split at hc
    · cases hc
    · simp only [Number.toRat?, Bool.false_eq_true, if_false, one_mul, Option.some.injEq]
        at hc
      rw [zpow_shift, ← mul_div_assoc, div_eq_iff (by positivity)] at hc
      have hc' : roundNearestEven (m * 16777215) (roundShift (m * 16777215) (-(E : ℤ))) *
          2 ^ roundShift (m * 16777215) (-(E : ℤ)) = 16777215 * 2 ^ E := by
        exact_mod_cast hc
      omega

theorem binade (c : Nat) (h0 : c ≠ 0) (hc : c < 2 ^ 24) :
    ∃ p, p ≤ 23 ∧ 2 ^ p ≤ c ∧ c < 2 ^ (p + 1) := by
  refine ⟨Nat.log2 c, ?_, Nat.log2_self_le h0, Nat.lt_log2_self⟩
  have : Nat.log2 c < 24 := (Nat.log2_lt h0).2 hc
  omega

/-- The color `2^p`, for `p ≤ 23`, is reached. -/
theorem randomColor_reaches_power (p : Nat) (hp : p ≤ 23) :
    ∃ r : Number, r.IsDouble ∧ r.InUnitInterval ∧
      (Line2.randomColor r).toRat? = some ((2 ^ p : Nat) : ℚ) := by
  refine ⟨.fin false 4503599895805968 (-((76 - p : Nat) : ℤ)), ⟨by norm_num, by omega, ?_⟩,
    ⟨(4503599895805968 : ℚ) * (2 : ℚ) ^ (-((76 - p : Nat) : ℤ)),
      by simp [Number.toRat?], by positivity, ?_⟩, ?_⟩
  · have : bitLength 4503599895805968 = 53 := by decide
    omega
  · rw [zpow_neg, zpow_natCast, ← div_eq_mul_inv, div_lt_one (by positivity)]
    have h1 : (2 : ℚ) ^ 53 ≤ (2 : ℚ) ^ (76 - p) :=
      pow_le_pow_right₀ (by norm_num) (by omega)
    have h2 : (4503599895805968 : ℚ) < (2 : ℚ) ^ 53 := by norm_num
    linarith
  · rw [randomColor_fin]
    have hP : 4503599895805968 * 16777215 = 75557863725914323419120 := by norm_num
    have hb : bitLength 75557863725914323419120 = 76 := by decide
    have hs : roundShift 75557863725914323419120 (-((76 - p : Nat) : ℤ)) = 23 := by
      simp only [roundShift, hb]
      omega
    have hq : roundNearestEven 75557863725914323419120 23 = 9007199254740992 := by decide
    have hbq : bitLength 9007199254740992 = 54 := by decide
    simp only [hP, Number.round, hs, hq, hbq]
    rw [if_neg (by rintro ⟨_, h⟩; omega)]
    simp only [Number.toRat?, Bool.false_eq_true, if_false, one_mul, Option.some.injEq]
    rw [zpow_shift]
    have e1 : (2 : ℚ) ^ (76 - p) * 2 ^ p = 2 ^ 76 := by
      rw [← pow_add]; congr 1; omega
    rw [← mul_div_assoc, div_eq_iff (by positivity)]
    push_cast
    rw [mul_comm ((2 : ℚ) ^ p), e1]
    norm_num

/-- A color strictly inside a binade `(2^p, 2^(p+1))` and below `16777215` is
reached: take for `r` the multiple of `2^(p-76)` nearest to `c / 16777215`. -/
theorem randomColor_reaches_inner (c p : Nat) (hp : p ≤ 23) (h1 : 2 ^ p < c)
    (h2 : c < 2 ^ (p + 1)) (hc : c < 16777215) :
    ∃ r : Number, r.IsDouble ∧ r.InUnitInterval ∧
      (Line2.randomColor r).toRat? = some (c : ℚ) := by
  obtain ⟨E, hE⟩ : ∃ E, E = 76 - p := ⟨_, rfl⟩
  have hAT : 2 ^ p * 2 ^ E = 2 ^ 76 := by rw [← Nat.pow_add]; congr 1; omega
  have hT53 : 2 ^ 53 ≤ 2 ^ E := Nat.pow_le_pow_right (by decide) (by omega)
  obtain ⟨C, hC⟩ : ∃ C, C = c * 2 ^ E := ⟨_, rfl⟩
  have hClo : 2 ^ 76 + 2 ^ 53 ≤ C := by
    have : (2 ^ p + 1) * 2 ^ E ≤ c * 2 ^ E := Nat.mul_le_mul_right _ h1
    have e : (2 ^ p + 1) * 2 ^ E = 2 ^ p * 2 ^ E + 2 ^ E := by ring
    omega
  have hChi : C ≤ 2 ^ 77 - 2 ^ 54 := by
    rcases Nat.lt_or_ge p 23 with h | h
    · have hT54 : 2 ^ 54 ≤ 2 ^ E := Nat.pow_le_pow_right (by decide) (by omega)
      have : (c + 1) * 2 ^ E ≤ 2 ^ (p + 1) * 2 ^ E := Nat.mul_le_mul_right _ h2
      have e : (c + 1) * 2 ^ E = c * 2 ^ E + 2 ^ E := by ring
      have e2 : 2 ^ (p + 1) * 2 ^ E = 2 * (2 ^ p * 2 ^ E) := by ring
      omega
    · have hp23 : p = 23 := by omega
      have hE53 : E = 53 := by omega
      rw [hC, hE53]
      omega
  obtain ⟨Q, hQdef⟩ : ∃ Q, Q = c * 2 ^ (E - 24) := ⟨_, rfl⟩
  have hQ : C = Q * 16777216 := by
    rw [hC, hQdef, Nat.mul_assoc]
    congr 1
    rw [show (16777216 : Nat) = 2 ^ 24 by norm_num, ← Nat.pow_add]
    congr 1
    omega
  obtain ⟨k, hk⟩ : ∃ k, k = (2 * C + 16777215) / 33554430 := ⟨_, rfl⟩
  have hk53 : k < 2 ^ 53 := by omega
  have hPlo : 2 ^ 76 ≤ k * 16777215 := by omega
  have hPhi : k * 16777215 < 2 ^ (76 + 1) := by omega
  have hbl : bitLength (k * 16777215) = 77 := bitLength_eq _ 76 hPlo hPhi
  have hs : roundShift (k * 16777215) (-(E : ℤ)) = 24 := by
    simp only [roundShift, hbl]
    omega
  have hq : roundNearestEven (k * 16777215) 24 = Q :=
    roundNearestEven_eq _ _ _ (by omega) (by omega)
  have hblq : bitLength Q = 53 := bitLength_eq _ 52 (by omega) (by omega)
  have hblk : bitLength k ≤ 53 := (bitLength_le_iff _ _).2 hk53
  refine ⟨.fin false k (-(E : ℤ)), ⟨hk53, by omega, by omega⟩,
    ⟨(k : ℚ) * (2 : ℚ) ^ (-(E : ℤ)), by simp [Number.toRat?], by positivity, ?_⟩, ?_⟩
  · rw [zpow_neg, zpow_natCast, ← div_eq_mul_inv, div_lt_one (by positivity)]
    have : k < 2 ^ E := lt_of_lt_of_le hk53 hT53
    exact_mod_cast this
  · rw [randomColor_fin]
    simp only [Number.round, hs, hq, hblq]
    rw [if_neg (by rintro ⟨_, h⟩; omega)]
    simp only [Number.toRat?, Bool.false_eq_true, if_false, one_mul, Option.some.injEq]
    rw [zpow_shift, ← mul_div_assoc, div_eq_iff (by positivity)]
    have : Q * 2 ^ 24 = c * 2 ^ E := by rw [← hC, hQ]; norm_num
    exact_mod_cast this

/-- C5, amended: every integer color `c` with `0 ≤ c < 16777215` is reached:
there is a binary64 `r` with `0 ≤ r < 1` for which `r * 0xffffff`, the color
passed to the default `LineMaterial`, equals `c`. -/
theorem randomColor_reaches (c : Nat) (hc : c < 16777215) :
    ∃ r : Number, r.IsDouble ∧ r.InUnitInterval ∧
      (Line2.randomColor r).toRat? = some (c : ℚ) := by
  by_cases h0 : c = 0
  · subst h0
    refine ⟨.fin false 0 0, ⟨by norm_num, by norm_num, by decide⟩,
      ⟨0, by simp [Number.toRat?], le_refl _, by norm_num⟩, ?_⟩
    rw [randomColor_fin, Nat.zero_mul, round_zero]
    simp [Number.toRat?]
  · obtain ⟨p, hp, h1, h2⟩ := binade c h0 (by omega)
    rcases Nat.eq_or_lt_of_le h1 with h | h
    · rw [← h]
      exact randomColor_reaches_power p hp
    · exact randomColor_reaches_inner c p hp h h2 hc

theorem randomColor_reaches_witness :
    ∃ r : Number, r.IsDouble ∧ r.InUnitInterval ∧
      (Line2.randomColor r).toRat? = some ((16777214 : Nat) : ℚ) :=
  randomColor_reaches 16777214 (by decide)

/-! ## The module-level code -/

theorem foldl_setProp_next (t : Nat) (l : List (String × Val)) :
    ∀ w : World, (l.foldl (fun w p => w.setProp t p.1 p.2) w).next = w.next := by
  induction l with
  | nil => intro w; rfl
  | cons p rest ih => intro w; rw [List.foldl_cons, ih, setProp_next]

theorem objectAssign_next (w : World) (target source : Nat) :
    (objectAssign w target source).next = w.next :=
  foldl_setProp_next target _ w

theorem loadModule_create_installed (env : Imports) (w : World) :
    Installed { line2 := w.next } (w.next + 2)
      (let f := w.alloc { proto := env.functionPrototype, props := [] }
       let d := f.2.alloc
         { proto := env.objectPrototype, props := [("constructor", .obj f.1)] }
       let w1 := d.2.setProp f.1 "prototype" (.obj d.1)
       let p := w1.alloc { proto := env.LineSegments2.prototype, props := [] }
       let l := p.2.alloc { proto := env.objectPrototype,
                            props := [("constructor", .obj f.1), ("isLine2", .bool true)] }
       let w2 := objectAssign l.2 p.1 l.1
       w2.setProp f.1 "prototype" (.obj p.1)) := by
  refine ⟨?_, ?_, ?_, ?_⟩
  · simp only [setProp_next, objectAssign_next, alloc_next, alloc_fst]
    omega
  · simp only [setProp_next, objectAssign_next, alloc_next, alloc_fst]
    omega
  · simp [objectAssign, World.alloc, World.setProp, Obj.own, lookup_setEntry_same]
  · simp [objectAssign, World.alloc, World.setProp, Obj.own, Function.update, setEntry,
      List.lookup]

/-- Loading the module establishes `Installed`: `Line2.prototype` is the object
created by `Object.create`, and it carries `isLine2: true`. -/
theorem loadModule_installed (env : Imports) (w : World) (md : Module) (w' : World)
    (h : loadModule env w = .ok md w') : Installed md (w.next + 2) w' := by
  have key := loadModule_create_installed env w
  simp only [loadModule] at h
  split at h
  · cases h; exact key
  · cases h; exact key
  · cases h

end BlueMap
